import Mathlib

/-!
Verification of the network-automation core of `network_mon`.

This file gives a shallow embedding, in Lean 4, of the parts of the
repository that the frozen claims are about:

* the vendor adapters (`app/network/adapters/{cisco,h3c,huawei}.py`):
  command generation (`get_command`) and MAC-address normalization;
* the task boundary (`app/network/tasks/network_tasks.py`):
  `execute_network_task` and the per-task bodies;
* the concurrent runner (`app/network/core/runner.py`): `run_on_devices`;
* the CLI session manager (`app/network/cli/cli_session.py`): create /
  get / close / expiry sweep, and the index-consistency invariant;
* the configuration pipeline (`app/network/config/config_tasks.py` and
  `config_operations.py`): deploy (dry run), diff, rollback.

Pure Python functions become Lean functions over `List Char` / `String`;
stateful code becomes explicit state passing; fallible code returns
`Except`; the outside world (device transport, filesystem, database) is
passed in as explicit environment values describing the outcome of each
external interaction, so that the control flow of the embedded code is
exactly the control flow of the source.
-/

namespace NetworkMon

/-! ## Python-style primitives

Helpers mirroring the Python string/dict primitives the source uses.
All of them are by structural recursion over `List Char` so that
concrete witnesses evaluate by `decide`. -/

/-- Association-list lookup, mirroring Python `dict.get` /
`key in dict`. -/
def alookup {α β : Type} [DecidableEq α] : List (α × β) → α → Option β
  | [], _ => none
  | (k, v) :: rest, a => if k = a then some v else alookup rest a

/-- Python `d[k] = v`: update in place when the key exists, append
otherwise (dicts preserve insertion order). -/
def dinsert {α β : Type} [DecidableEq α] : List (α × β) → α → β → List (α × β)
  | [], a, b => [(a, b)]
  | (k, v) :: rest, a, b => if k = a then (a, b) :: rest else (k, v) :: dinsert rest a b

/-- Python `del d[k]` (on a key-unique association list this removes the
single entry with key `k`). -/
def eraseKey {α β : Type} [DecidableEq α] : List (α × β) → α → List (α × β)
  | [], _ => []
  | (k, v) :: rest, a => if k = a then eraseKey rest a else (k, v) :: eraseKey rest a

/-- Python `set.discard` on a set of numbers modelled as a list. -/
def removeAll {α : Type} [DecidableEq α] : List α → α → List α
  | [], _ => []
  | x :: rest, a => if x = a then removeAll rest a else x :: removeAll rest a

/-- Whitespace characters stripped by Python `str.strip()`. -/
def isPySpace (c : Char) : Bool :=
  c = ' ' || c = '\t' || c = '\n' || c = '\r' || c = '\x0b' || c = '\x0c'

/-- Python `str.strip()` over a character list. -/
def pyStrip (cs : List Char) : List Char :=
  ((cs.dropWhile isPySpace).reverse.dropWhile isPySpace).reverse

/-- Python `str.startswith` over character lists. -/
def startsWithCL : List Char → List Char → Bool
  | _, [] => true
  | [], _ :: _ => false
  | c :: cs, p :: ps => c = p && startsWithCL cs ps

/-- Collapse the line boundaries Python `str.splitlines()` recognizes
(`'\n'`, `'\r'`, `'\r\n'`) into single `'\n'` characters.  The boolean
argument records whether the previous character was `'\r'`, so that the
`'\n'` of a `'\r\n'` pair is swallowed. -/
def normalizeNewlines : List Char → Bool → List Char
  | [], _ => []
  | c :: rest, pendingCR =>
    if c = '\r' then '\n' :: normalizeNewlines rest true
    else if c = '\n' then
      (if pendingCR then normalizeNewlines rest false
       else '\n' :: normalizeNewlines rest false)
    else c :: normalizeNewlines rest false

/-- Split at `'\n'`, accumulating the current segment reversed; a final
empty segment (input ending in a line break) is not produced. -/
def pySplitlinesAux : List Char → List Char → List String
  | [], acc => if acc.isEmpty then [] else [String.mk acc.reverse]
  | c :: rest, acc =>
    if c = '\n' then String.mk acc.reverse :: pySplitlinesAux rest []
    else pySplitlinesAux rest (c :: acc)

/-- Python `str.splitlines()`. -/
def pySplitlines (s : String) : List String :=
  pySplitlinesAux (normalizeNewlines s.data false) []

/-! ## Vendor adapters (`app/network/adapters/`)

`CiscoAdapter`, `H3CAdapter` and `HuaweiAdapter` are each an immutable
pair of tables (`_command_map`, `_required_params`) plus `get_command`
and `_format_mac_address`.  The three `get_command` bodies are
line-for-line identical up to the tables and the MAC separator, so the
embedding is one function over a `Vendor` tag. -/

inductive Vendor : Type
  | cisco
  | h3c
  | huawei
deriving DecidableEq, Repr, Fintype

/-- Adapter-level exceptions (`app/network/adapters/base.py`). -/
inductive AdapterError : Type
  | unsupportedAction (msg : String)
  | commandError (msg : String)
deriving DecidableEq, Repr

/-- The `_command_map` table of `CiscoAdapter.__init__`. -/
def ciscoCommandMap : List (String × String) :=
  [("get_version", "show version"),
   ("get_interfaces", "show ip interface brief"),
   ("get_interface_detail", "show interfaces {interface}"),
   ("get_mac_address_table", "show mac address-table"),
   ("get_arp_table", "show ip arp"),
   ("get_vlan_brief", "show vlan brief"),
   ("show_running_config", "show running-config"),
   ("show_startup_config", "show startup-config"),
   ("find_mac", "show mac address-table | include {mac_address}"),
   ("find_arp", "show ip arp | include {ip_address}"),
   ("get_vlan_detail", "show vlan id {vlan_id}"),
   ("ping", "ping {target}"),
   ("traceroute", "traceroute {target}"),
   ("save_config", "write memory")]

/-- The `_command_map` table of `H3CAdapter.__init__`. -/
def h3cCommandMap : List (String × String) :=
  [("get_version", "display version"),
   ("get_interfaces", "display interface brief"),
   ("get_interface_detail", "display interface {interface}"),
   ("find_mac", "display mac-address | include {mac_address}"),
   ("get_mac_table", "display mac-address"),
   ("get_arp_table", "display arp"),
   ("find_arp", "display arp | include {ip_address}"),
   ("get_vlan", "display vlan"),
   ("get_vlan_detail", "display vlan {vlan_id}"),
   ("show_running", "display current-configuration"),
   ("show_startup", "display saved-configuration"),
   ("ping", "ping {target}"),
   ("traceroute", "tracert {target}"),
   ("save_config", "save")]

/-- The `_command_map` table of `HuaweiAdapter.__init__`. -/
def huaweiCommandMap : List (String × String) :=
  [("get_version", "display version"),
   ("get_interfaces", "display interface brief"),
   ("get_interface_detail", "display interface {interface}"),
   ("get_mac_address_table", "display mac-address"),
   ("get_arp_table", "display arp all"),
   ("get_vlan", "display vlan"),
   ("show_running_config", "display current-configuration"),
   ("show_startup_config", "display saved-configuration"),
   ("find_mac", "display mac-address | include {mac_address}"),
   ("find_arp", "display arp | include {ip_address}"),
   ("get_vlan_detail", "display vlan {vlan_id}"),
   ("ping", "ping {target}"),
   ("traceroute", "tracert {target}"),
   ("save_config", "save")]

def commandMap : Vendor → List (String × String)
  | .cisco => ciscoCommandMap
  | .h3c => h3cCommandMap
  | .huawei => huaweiCommandMap

/-- The `_required_params` table; it is textually identical in all three
adapters. -/
def requiredParamsMap : List (String × List String) :=
  [("get_interface_detail", ["interface"]),
   ("find_mac", ["mac_address"]),
   ("find_arp", ["ip_address"]),
   ("get_vlan_detail", ["vlan_id"]),
   ("ping", ["target"]),
   ("traceroute", ["target"])]

/-- `self._required_params.get(action, [])`. -/
def requiredParams (action : String) : List String :=
  (alookup requiredParamsMap action).getD []

/-- `get_supported_actions` returns `list(self._command_map.keys())`. -/
def supportedActions (v : Vendor) : List String :=
  (commandMap v).map Prod.fst

/-- `BaseAdapter.is_action_supported`. -/
def isActionSupported (v : Vendor) (action : String) : Bool :=
  (supportedActions v).contains action

/-- Characters kept by the regex `[^a-fA-F0-9]` substitution in
`_format_mac_address`. -/
def isHexDigitChar (c : Char) : Bool :=
  (('a' ≤ c) && (c ≤ 'f')) || (('A' ≤ c) && (c ≤ 'F')) || (('0' ≤ c) && (c ≤ '9'))

/-- `re.sub(r"[^a-fA-F0-9]", "", mac.lower())`: lowercase, then strip
every non-hex character. -/
def cleanMac (mac : String) : List Char :=
  (mac.data.map Char.toLower).filter isHexDigitChar

/-- Vendor MAC separator: `aabb.ccdd.eeff` for Cisco, `aabb-ccdd-eeff`
for H3C and Huawei. -/
def macSeparator : Vendor → Char
  | .cisco => '.'
  | .h3c => '-'
  | .huawei => '-'

/-- `_format_mac_address` of each adapter: requires exactly 12 hex
digits after cleaning, else raises `CommandError`; groups the digits in
fours with the vendor separator. -/
def formatMacAddress (v : Vendor) (mac : String) : Except AdapterError String :=
  let clean := cleanMac mac
  if clean.length = 12 then
    .ok (String.mk (clean.take 4 ++ macSeparator v ::
      ((clean.drop 4).take 4 ++ macSeparator v :: (clean.drop 8).take 4)))
  else
    .error (.commandError ("无效的MAC地址格式: " ++ mac))

instance {ε α : Type} [DecidableEq ε] [DecidableEq α] : DecidableEq (Except ε α) := fun a b =>
  match a, b with
  | .ok x, .ok y =>
    if h : x = y then isTrue (by rw [h]) else isFalse (fun c => by cases c; exact h rfl)
  | .error x, .error y =>
    if h : x = y then isTrue (by rw [h]) else isFalse (fun c => by cases c; exact h rfl)
  | .ok _, .error _ => isFalse (fun c => by cases c)
  | .error _, .ok _ => isFalse (fun c => by cases c)

/-- Python `str.format(**params)` restricted to what the command
templates use: each placeholder between a brace pair is replaced by the
value bound to its name in `params`; a placeholder name absent from
`params` raises `KeyError`, which `get_command` converts to
`CommandError`.  The second argument is `some acc` while scanning a
placeholder name (`acc` holds the name read so far, reversed), `none`
outside one. -/
def formatTemplateGo (params : List (String × String)) :
    List Char → Option (List Char) → Except AdapterError (List Char)
  | [], none => .ok []
  | [], some _ => .error (.commandError "命令参数错误: unterminated placeholder")
  | c :: rest, none =>
    if c = '{' then formatTemplateGo params rest (some [])
    else (formatTemplateGo params rest none).map (c :: ·)
  | c :: rest, some acc =>
    if c = '}' then
      match alookup params (String.mk acc.reverse) with
      | some v => (formatTemplateGo params rest none).map (v.data ++ ·)
      | none => .error (.commandError ("命令参数错误: '" ++ String.mk acc.reverse ++ "'"))
    else formatTemplateGo params rest (some (c :: acc))

/-- Python `template.format(**params)` for the adapter command
templates. -/
def formatTemplate (cs : List Char) (params : List (String × String)) :
    Except AdapterError (List Char) :=
  formatTemplateGo params cs none

/-- `get_command(action, **params)` of the three adapters: reject an
unsupported action with `UnsupportedActionError`; reject a missing
required parameter with `CommandError`; for `find_mac` normalize the
MAC address first; then instantiate the command template. -/
def getCommand (v : Vendor) (action : String) (params : List (String × String)) :
    Except AdapterError String := do
  if !isActionSupported v action then
    .error (.unsupportedAction ("适配器不支持的动作: " ++ action))
  else
    match (requiredParams action).find? (fun p => (alookup params p).isNone) with
    | some p => .error (.commandError ("动作 " ++ action ++ " 缺少必需参数: " ++ p))
    | none =>
      let template := ((alookup (commandMap v) action).getD "").data
      if action = "find_mac" then do
        let mac ← formatMacAddress v ((alookup params "mac_address").getD "")
        let out ← formatTemplate template [("mac_address", mac)]
        .ok (String.mk out)
      else do
        let out ← formatTemplate template params
        .ok (String.mk out)

/-- Placeholder names occurring in a template, mirroring the scan of
`formatTemplateGo` (an unterminated trailing placeholder is ignored;
all real templates are well formed). -/
def placeholdersGo : List Char → Option (List Char) → List String
  | [], _ => []
  | c :: rest, none =>
    if c = '{' then placeholdersGo rest (some []) else placeholdersGo rest none
  | c :: rest, some acc =>
    if c = '}' then String.mk acc.reverse :: placeholdersGo rest none
    else placeholdersGo rest (some (c :: acc))

/-- Whether the template scan ends outside a placeholder. -/
def terminatedGo : List Char → Option (List Char) → Bool
  | [], st => st.isNone
  | c :: rest, none =>
    if c = '{' then terminatedGo rest (some []) else terminatedGo rest none
  | c :: rest, some acc =>
    if c = '}' then terminatedGo rest none
    else terminatedGo rest (some (c :: acc))

theorem formatTemplateGo_ok (params : List (String × String)) :
    ∀ (cs : List Char) (st : Option (List Char)),
    terminatedGo cs st = true →
    (∀ n ∈ placeholdersGo cs st, (alookup params n).isSome) →
    ∃ out, formatTemplateGo params cs st = .ok out := by
  intro cs
  induction cs with
  | nil =>
    intro st ht _
    cases st with
    | none => exact ⟨[], rfl⟩
    | some acc => simp [terminatedGo, Option.isNone] at ht
  | cons c rest ih =>
    intro st ht hp
    cases st with
    | none =>
      by_cases hc : c = '{'
      · simp only [terminatedGo, hc, if_true] at ht
        simp only [placeholdersGo, hc, if_true] at hp
        obtain ⟨out, hout⟩ := ih (some []) ht hp
        exact ⟨out, by simp [formatTemplateGo, hc, hout]⟩
      · simp only [terminatedGo, hc, if_false] at ht
        simp only [placeholdersGo, hc, if_false] at hp
        obtain ⟨out, hout⟩ := ih none ht hp
        exact ⟨c :: out, by simp [formatTemplateGo, hc, hout, Except.map]⟩
    | some acc =>
      by_cases hc : c = '}'
      · simp only [terminatedGo, hc, if_true] at ht
        simp only [placeholdersGo, hc, if_true] at hp
        have hname : (alookup params (String.mk acc.reverse)).isSome := by
          exact hp _ (List.mem_cons_self _ _)
        obtain ⟨v, hv⟩ := Option.isSome_iff_exists.mp hname
        obtain ⟨out, hout⟩ := ih none ht (fun n hn => hp n (List.mem_cons_of_mem _ hn))
        exact ⟨v.data ++ out, by simp [formatTemplateGo, hc, hv, hout, Except.map]⟩
      · simp only [terminatedGo, hc, if_false] at ht
        simp only [placeholdersGo, hc, if_false] at hp
        obtain ⟨out, hout⟩ := ih (some (c :: acc)) ht hp
        exact ⟨out, by simp [formatTemplateGo, hc, hout]⟩

/-- Every command template of every vendor is well formed and only
mentions placeholders that are required parameters of its action
(checked by evaluation over the three concrete tables). -/
theorem templates_wellformed :
    ∀ v : Vendor, ∀ p ∈ commandMap v,
      terminatedGo p.2.data none = true ∧
      ∀ n ∈ placeholdersGo p.2.data none, n ∈ requiredParams p.1 := by
  decide

theorem alookup_isSome_of_mem_fst {α β : Type} [DecidableEq α]
    {l : List (α × β)} {a : α} (h : a ∈ l.map Prod.fst) :
    (alookup l a).isSome := by
  induction l with
  | nil => simp at h
  | cons p rest ih =>
    by_cases hpa : p.1 = a
    · simp [alookup, hpa]
    · simp only [List.map_cons, List.mem_cons] at h
      rcases h with h | h

      · exact absurd h.symm hpa
      · simpa [alookup, hpa] using ih h

theorem alookup_mem {α β : Type} [DecidableEq α]
    {l : List (α × β)} {a : α} {b : β} (h : alookup l a = some b) :
    (a, b) ∈ l := by
  induction l with
  | nil => simp [alookup] at h
  | cons p rest ih =>
    by_cases hpa : p.1 = a
    · simp only [alookup, hpa, if_true, Option.some_inj] at h
      have hab : (a, b) = p := by
        cases p
        simp_all
      rw [hab]
      exact List.mem_cons_self _ _
    · simp only [alookup, hpa, if_false] at h
      exact List.mem_cons_of_mem _ (ih h)

/-- The MAC grouping produced for vendor `v`: the twelve cleaned hex
digits in groups of four, joined by the vendor separator. -/
def groupedMac (v : Vendor) (mac : String) : String :=
  String.mk ((cleanMac mac).take 4 ++ macSeparator v ::
    (((cleanMac mac).drop 4).take 4 ++ macSeparator v :: ((cleanMac mac).drop 8).take 4))

theorem formatMacAddress_ok {mac : String} (v : Vendor) (h : (cleanMac mac).length = 12) :
    formatMacAddress v mac = .ok (groupedMac v mac) := by
  simp [formatMacAddress, h, groupedMac]

theorem formatMacAddress_err {mac : String} (v : Vendor) (h : ¬(cleanMac mac).length = 12) :
    formatMacAddress v mac = .error (.commandError ("无效的MAC地址格式: " ++ mac)) := by
  simp [formatMacAddress, h]

theorem Except_bind_ok {ε α β : Type} (a : α) (f : α → Except ε β) :
    (Except.ok a : Except ε α).bind f = f a := rfl

theorem Except_bind_error {ε α β : Type} (e : ε) (f : α → Except ε β) :
    (Except.error e : Except ε α).bind f = .error e := rfl

theorem formatTemplate_h3c_mac (m : String) :
    formatTemplate "display mac-address | include {mac_address}".data
      [("mac_address", m)] =
      .ok ("display mac-address | include ".data ++ m.data) := by
  simp [formatTemplate, formatTemplateGo, alookup, Except.map]

theorem formatTemplate_cisco_mac (m : String) :
    formatTemplate "show mac address-table | include {mac_address}".data
      [("mac_address", m)] =
      .ok ("show mac address-table | include ".data ++ m.data) := by
  simp [formatTemplate, formatTemplateGo, alookup, Except.map]

/-- The command prefix that `find_mac` instantiation produces for a
vendor. -/
def findMacCommandStem : Vendor → String
  | .cisco => "show mac address-table | include "
  | .h3c => "display mac-address | include "
  | .huawei => "display mac-address | include "

theorem getCommand_find_mac_ok {mac : String} (v : Vendor)
    (h : (cleanMac mac).length = 12) :
    getCommand v "find_mac" [("mac_address", mac)] =
      .ok (findMacCommandStem v ++ groupedMac v mac) := by
  have hm : formatMacAddress v mac = .ok (groupedMac v mac) := formatMacAddress_ok v h
  cases v
  case cisco =>
    have hred : getCommand .cisco "find_mac" [("mac_address", mac)] =
        (formatMacAddress .cisco mac).bind (fun m =>
          (formatTemplate "show mac address-table | include {mac_address}".data
            [("mac_address", m)]).bind (fun out => .ok (String.mk out))) := rfl
    rw [hred, hm, Except_bind_ok, formatTemplate_cisco_mac, Except_bind_ok]
    rfl
  case h3c =>
    have hred : getCommand .h3c "find_mac" [("mac_address", mac)] =
        (formatMacAddress .h3c mac).bind (fun m =>
          (formatTemplate "display mac-address | include {mac_address}".data
            [("mac_address", m)]).bind (fun out => .ok (String.mk out))) := rfl
    rw [hred, hm, Except_bind_ok, formatTemplate_h3c_mac, Except_bind_ok]
    rfl
  case huawei =>
    have hred : getCommand .huawei "find_mac" [("mac_address", mac)] =
        (formatMacAddress .huawei mac).bind (fun m =>
          (formatTemplate "display mac-address | include {mac_address}".data
            [("mac_address", m)]).bind (fun out => .ok (String.mk out))) := rfl
    rw [hred, hm, Except_bind_ok, formatTemplate_h3c_mac, Except_bind_ok]
    rfl

theorem getCommand_find_mac_err {mac : String} (v : Vendor)
    (h : ¬(cleanMac mac).length = 12) :
    getCommand v "find_mac" [("mac_address", mac)] =
      .error (.commandError ("无效的MAC地址格式: " ++ mac)) := by
  cases v
  all_goals
    simp [getCommand, isActionSupported, supportedActions, commandMap,
      ciscoCommandMap, h3cCommandMap, huaweiCommandMap, requiredParams,
      requiredParamsMap, alookup, formatMacAddress_err _ h, formatTemplate,
      bind, Except.bind]

/-- C6: MAC normalization for `find_mac` strips every non-hex character
and lowercases the input.  An input whose stripped form has exactly 12
hex digits (such as `AA:BB:CC:DD:EE:FF`, whose groups are
`aabb-ccdd-eeff` for H3C/Huawei and `aabb.ccdd.eeff` for Cisco) yields
the vendor `include` command over the grouped MAC; any input whose
stripped form is not exactly 12 hex digits makes `get_command` raise
`CommandError`. -/
theorem find_mac_normalization (mac : String) :
    (cleanMac mac = (mac.data.map Char.toLower).filter isHexDigitChar) ∧
    (groupedMac .h3c "AA:BB:CC:DD:EE:FF" = "aabb-ccdd-eeff" ∧
     groupedMac .huawei "AA:BB:CC:DD:EE:FF" = "aabb-ccdd-eeff" ∧
     groupedMac .cisco "AA:BB:CC:DD:EE:FF" = "aabb.ccdd.eeff") ∧
    ((cleanMac mac).length = 12 →
      ∀ v : Vendor, getCommand v "find_mac" [("mac_address", mac)] =
        .ok (findMacCommandStem v ++ groupedMac v mac)) ∧
    ((cleanMac mac).length ≠ 12 →
      ∀ v : Vendor, getCommand v "find_mac" [("mac_address", mac)] =
        .error (.commandError ("无效的MAC地址格式: " ++ mac))) := by
  refine ⟨rfl, by decide, fun h v => getCommand_find_mac_ok v h,
    fun h v => getCommand_find_mac_err v h⟩

/-- Witness for `find_mac_normalization`: evaluated at
`AA:BB:CC:DD:EE:FF` (well formed) and `xyz` (malformed). -/
theorem find_mac_normalization_witness :
    (cleanMac "AA:BB:CC:DD:EE:FF").length = 12 ∧
    getCommand .h3c "find_mac" [("mac_address", "AA:BB:CC:DD:EE:FF")] =
      .ok "display mac-address | include aabb-ccdd-eeff" ∧
    (cleanMac "xyz").length ≠ 12 ∧
    getCommand .cisco "find_mac" [("mac_address", "xyz")] =
      .error (.commandError "无效的MAC地址格式: xyz") := by
  have h1 := (find_mac_normalization "AA:BB:CC:DD:EE:FF").2.2.1 (by decide) .h3c
  have h2 := (find_mac_normalization "xyz").2.2.2 (by decide) .cisco
  exact ⟨by decide, by rw [h1]; decide, by decide, by rw [h2]; decide⟩

theorem getCommand_unsupported {v : Vendor} {action : String}
    (params : List (String × String)) (h : isActionSupported v action = false) :
    getCommand v action params =
      .error (.unsupportedAction ("适配器不支持的动作: " ++ action)) := by
  simp [getCommand, h]

theorem getCommand_missing_param {v : Vendor} {action : String}
    {params : List (String × String)} (hsup : isActionSupported v action = true)
    (hmiss : ∃ p ∈ requiredParams action, alookup params p = none) :
    ∃ q, getCommand v action params =
      .error (.commandError ("动作 " ++ action ++ " 缺少必需参数: " ++ q)) := by
  have hfind : ((requiredParams action).find? (fun p => (alookup params p).isNone)).isSome := by
    rw [List.find?_isSome]
    obtain ⟨p, hp, hnone⟩ := hmiss
    exact ⟨p, hp, by simp [hnone]⟩
  obtain ⟨q, hq⟩ := Option.isSome_iff_exists.mp hfind
  exact ⟨q, by simp [getCommand, hsup, hq]⟩

theorem findMacTemplate_ok (T : String) (mval : String)
    (hterm : terminatedGo T.data none = true)
    (hph : placeholdersGo T.data none = ["mac_address"]) :
    ∃ out, formatTemplateGo [("mac_address", mval)] T.data none = .ok out := by
  apply formatTemplateGo_ok _ _ _ hterm
  intro n hn
  rw [hph] at hn
  simp at hn
  subst hn
  simp [alookup]

theorem getCommand_ok {v : Vendor} {action : String} {params : List (String × String)}
    (hsup : isActionSupported v action = true)
    (hreq : ∀ p ∈ requiredParams action, (alookup params p).isSome)
    (hmac : action = "find_mac" →
      (cleanMac ((alookup params "mac_address").getD "")).length = 12) :
    ∃ s, getCommand v action params = .ok s := by
  have hfind : (requiredParams action).find? (fun p => (alookup params p).isNone) = none := by
    rw [List.find?_eq_none]
    intro p hp
    simp [Option.isSome_iff_ne_none.mp (hreq p hp)]
  by_cases hfm : action = "find_mac"
  · subst hfm
    obtain ⟨mval, hmval⟩ := Option.isSome_iff_exists.mp (hreq "mac_address" (by decide))
    have h12 : (cleanMac mval).length = 12 := by
      have := hmac rfl
      rwa [hmval, Option.getD_some] at this
    cases v
    · obtain ⟨out, hout⟩ := findMacTemplate_ok "show mac address-table | include {mac_address}"
        (groupedMac Vendor.cisco mval) (by decide) (by decide)
      refine ⟨String.mk out, ?_⟩
      simp [getCommand, isActionSupported, supportedActions, commandMap, ciscoCommandMap,
        h3cCommandMap, huaweiCommandMap, requiredParams, requiredParamsMap, alookup,
        hmval, formatMacAddress_ok, h12, formatTemplate, hout, bind, Except.bind]
    · obtain ⟨out, hout⟩ := findMacTemplate_ok "display mac-address | include {mac_address}"
        (groupedMac Vendor.h3c mval) (by decide) (by decide)
      refine ⟨String.mk out, ?_⟩
      simp [getCommand, isActionSupported, supportedActions, commandMap, ciscoCommandMap,
        h3cCommandMap, huaweiCommandMap, requiredParams, requiredParamsMap, alookup,
        hmval, formatMacAddress_ok, h12, formatTemplate, hout, bind, Except.bind]
    · obtain ⟨out, hout⟩ := findMacTemplate_ok "display mac-address | include {mac_address}"
        (groupedMac Vendor.huawei mval) (by decide) (by decide)
      refine ⟨String.mk out, ?_⟩
      simp [getCommand, isActionSupported, supportedActions, commandMap, ciscoCommandMap,
        h3cCommandMap, huaweiCommandMap, requiredParams, requiredParamsMap, alookup,
        hmval, formatMacAddress_ok, h12, formatTemplate, hout, bind, Except.bind]
  · have hmem : action ∈ supportedActions v := by
      have h := hsup
      rw [isActionSupported] at h
      exact List.elem_iff.mp h
    obtain ⟨t, ht⟩ := Option.isSome_iff_exists.mp
      (alookup_isSome_of_mem_fst (l := commandMap v) hmem)
    have htm := templates_wellformed v (action, t) (alookup_mem ht)
    obtain ⟨out, hout⟩ := formatTemplateGo_ok params t.data none htm.1
      (fun n hn => hreq n (htm.2 n hn))
    refine ⟨String.mk out, ?_⟩
    simp [getCommand, hsup, hfind, hfm, ht, formatTemplate, hout, bind, Except.bind]

/-- C5 counterexample: `find_mac` is a supported Cisco action and its
sole required parameter `mac_address` is supplied, yet `get_command`
raises `CommandError` (the supplied MAC does not normalize), refuting
the claim that a supported action with all required parameters present
always returns the command string without raising. -/
theorem getCommand_present_params_can_fail :
    isActionSupported .cisco "find_mac" = true ∧
    (∀ p ∈ requiredParams "find_mac", (alookup [("mac_address", "xyz")] p).isSome) ∧
    getCommand .cisco "find_mac" [("mac_address", "xyz")] =
      .error (.commandError "无效的MAC地址格式: xyz") := by
  decide

/-- C5 (amended): `get_command` raises `UnsupportedActionError` on an
action outside the vendor's supported set; raises `CommandError` naming
the missing parameter when a supported action lacks a required
parameter; and for a supported action with all required parameters
present — and, for `find_mac`, a MAC address whose cleaned form has
exactly 12 hex digits — returns a command string without raising. -/
theorem getCommand_spec (v : Vendor) (action : String) (params : List (String × String)) :
    (isActionSupported v action = false →
      getCommand v action params =
        .error (.unsupportedAction ("适配器不支持的动作: " ++ action))) ∧
    (isActionSupported v action = true →
      (∃ p ∈ requiredParams action, alookup params p = none) →
      ∃ q, getCommand v action params =
        .error (.commandError ("动作 " ++ action ++ " 缺少必需参数: " ++ q))) ∧
    (isActionSupported v action = true →
      (∀ p ∈ requiredParams action, (alookup params p).isSome) →
      (action = "find_mac" →
        (cleanMac ((alookup params "mac_address").getD "")).length = 12) →
      ∃ s, getCommand v action params = .ok s) :=
  ⟨getCommand_unsupported params,
   fun hsup hmiss => getCommand_missing_param hsup hmiss,
   fun hsup hreq hmac => getCommand_ok hsup hreq hmac⟩

/-- Witness for `getCommand_spec`, applied at concrete inputs for each
of the three branches. -/
theorem getCommand_spec_witness :
    getCommand .huawei "bogus" [] =
      .error (.unsupportedAction ("适配器不支持的动作: " ++ "bogus")) ∧
    (∃ q, getCommand .cisco "ping" [] =
      .error (.commandError ("动作 " ++ "ping" ++ " 缺少必需参数: " ++ q))) ∧
    (∃ s, getCommand .h3c "get_version" [] = .ok s) :=
  ⟨(getCommand_spec .huawei "bogus" []).1 (by decide),
   (getCommand_spec .cisco "ping" []).2.1 (by decide) ⟨"target", by decide, by decide⟩,
   (getCommand_spec .h3c "get_version" []).2.2 (by decide) (by decide) (by decide)⟩

/-! ## Task execution (`app/network/tasks/network_tasks.py`)

The six task bodies are line-for-line identical up to the action name
and the keyword arguments forwarded to `get_command`, so they are
embedded as one function over a `TaskName` tag.  The device transport
(scrapli connection open, `on_open` commands, `send_command`) and the
output parser (external `ntc-templates`) are abstracted as a `ConnEnv`
value giving the outcome of that external interaction; wall-clock
execution time and the context timestamp are omitted. -/

/-- Python exception taxonomy relevant to the task / runner / config
boundaries. -/
inductive PyExc : Type
  | scrapliException (msg : String)
  | notImplementedError (msg : String)
  | valueError (msg : String)
  | typeError (msg : String)
  | adapterError (e : AdapterError)
  | runtimeError (msg : String)
  | fileNotFoundError (msg : String)
  | otherError (msg : String)
deriving DecidableEq, Repr

/-- Python `str(e)` on an exception. -/
def pyExcMsg : PyExc → String
  | .scrapliException m => m
  | .notImplementedError m => m
  | .valueError m => m
  | .typeError m => m
  | .adapterError (.unsupportedAction m) => m
  | .adapterError (.commandError m) => m
  | .runtimeError m => m
  | .fileNotFoundError m => m
  | .otherError m => m

/-- `TaskResult` of `app/network/core/runner.py` (re-exported to the
tasks module); `execution_time` is wall-clock and omitted.  Parsed data
is kept as an opaque string blob. -/
structure TaskResult where
  success : Bool
  taskId : String
  deviceId : String
  command : Option String := none
  rawOutput : Option String := none
  parsedData : Option String := none
  error : Option String := none
deriving DecidableEq, Repr

/-- `NetworkTaskContext` (timestamp and `extra_params` are unused by
the embedded code paths and omitted). -/
structure NetworkTaskContext where
  deviceId : String
  deviceIp : String
  deviceType : String
  username : String
  password : String
  taskId : String
deriving DecidableEq, Repr

/-- Python `str.lower()`. -/
def pyLower (s : String) : String :=
  String.mk (s.data.map Char.toLower)

/-- `get_adapter`: resolves the vendor from the device type, raising
`NotImplementedError` for an unknown vendor. -/
def getAdapter (deviceType : String) : Except PyExc Vendor :=
  let dt := pyLower deviceType
  if dt = "h3c" then .ok .h3c
  else if dt = "huawei" then .ok .huawei
  else if dt = "cisco" then .ok .cisco
  else .error (.notImplementedError ("不支持的设备类型: " ++ deviceType))

/-- The six entries of the `NETWORK_TASKS` registry. -/
inductive TaskName : Type
  | getVersion
  | getInterfaces
  | getInterfaceDetail
  | findMac
  | getArpTable
  | ping
deriving DecidableEq, Repr, Fintype

/-- The `NETWORK_TASKS` dict. -/
def networkTasks : List (String × TaskName) :=
  [("get_version", .getVersion),
   ("get_interfaces", .getInterfaces),
   ("get_interface_detail", .getInterfaceDetail),
   ("find_mac", .findMac),
   ("get_arp_table", .getArpTable),
   ("ping", .ping)]

/-- `NETWORK_TASKS.get(task_name)`. -/
def lookupTask (name : String) : Option TaskName :=
  alookup networkTasks name

/-- Parameters of each task function after `context`, with a flag for
"has a default value" (`ping`'s `count` defaults to 4). -/
def taskParams : TaskName → List (String × Bool)
  | .getVersion => []
  | .getInterfaces => []
  | .getInterfaceDetail => [("interface", false)]
  | .findMac => [("mac_address", false)]
  | .getArpTable => []
  | .ping => [("target", false), ("count", true)]

/-- `list(signature(task_func).parameters.keys())[1:]`. -/
def taskParamNames (tn : TaskName) : List String :=
  (taskParams tn).map Prod.fst

/-- Parameter names without a default value. -/
def taskRequiredNames (tn : TaskName) : List String :=
  ((taskParams tn).filter (fun p => !p.2)).map Prod.fst

/-- Python keyword-argument binding of `task_func(context, **kwargs)`:
binding succeeds iff every non-default parameter is supplied and no
supplied keyword is unknown; otherwise the call raises `TypeError`. -/
def signatureOk (tn : TaskName) (kwargs : List (String × String)) : Bool :=
  (taskRequiredNames tn).all (fun p => (alookup kwargs p).isSome) &&
  kwargs.all (fun kv => (taskParamNames tn).contains kv.1)

/-- The adapter action each task body requests. -/
def actionOf : TaskName → String
  | .getVersion => "get_version"
  | .getInterfaces => "get_interfaces"
  | .getInterfaceDetail => "get_interface_detail"
  | .findMac => "find_mac"
  | .getArpTable => "get_arp_table"
  | .ping => "ping"

/-- The keyword arguments each task body forwards to `get_command`
(`ping` forwards only `target`; `count` is noted in the source as
unused). -/
def taskCommandArgs (tn : TaskName) (kwargs : List (String × String)) :
    List (String × String) :=
  match tn with
  | .getInterfaceDetail => [("interface", (alookup kwargs "interface").getD "")]
  | .findMac => [("mac_address", (alookup kwargs "mac_address").getD "")]
  | .ping => [("target", (alookup kwargs "target").getD "")]
  | _ => []

/-- A scrapli `send_command` response. -/
structure Response where
  failed : Bool
  result : String
deriving DecidableEq, Repr

/-- Outcome of the external transport interaction inside a task body:
either opening the connection / running `on_open` commands /
`send_command` raised, or a response arrived, together with the outcome
of `adapter.parse_output` on it. -/
inductive ConnEnv : Type
  | raise (e : PyExc)
  | response (r : Response) (parse : Except PyExc (Option String))
deriving DecidableEq, Repr

/-- Exception classes caught by the `except (ScrapliException,
NotImplementedError, ValueError)` clause of every task body. -/
def isCaughtInTask : PyExc → Bool
  | .scrapliException _ => true
  | .notImplementedError _ => true
  | .valueError _ => true
  | _ => false

/-- The failed `TaskResult` a task body builds in its `except`
clause. -/
def taskFailure (ctx : NetworkTaskContext) (command : String) (msg : String) : TaskResult :=
  { success := false, taskId := ctx.taskId, deviceId := ctx.deviceId,
    command := some command, error := some msg }

/-- One task body (`DeviceInfoTask.get_device_version` and friends):
resolve the adapter and the command outside the `try` block (failures
propagate), then run the command inside `try`, catching only transport
and value errors; a failed response raises `ScrapliException` with the
response text, which the same clause catches. -/
def runTaskFn (tn : TaskName) (ctx : NetworkTaskContext)
    (kwargs : List (String × String)) (env : ConnEnv) : Except PyExc TaskResult := do
  let vendor ← getAdapter ctx.deviceType
  let command ← (getCommand vendor (actionOf tn) (taskCommandArgs tn kwargs)).mapError .adapterError
  match env with
  | .raise e =>
    if isCaughtInTask e then .ok (taskFailure ctx command (pyExcMsg e)) else .error e
  | .response r parse =>
    if r.failed then
      .ok (taskFailure ctx command ("命令执行失败: " ++ r.result))
    else
      match parse with
      | .error e =>
        if isCaughtInTask e then .ok (taskFailure ctx command (pyExcMsg e)) else .error e
      | .ok parsed =>
        .ok { success := true, taskId := ctx.taskId, deviceId := ctx.deviceId,
              command := some command, rawOutput := some r.result, parsedData := parsed }

/-- The Python call `task_func(context, **kwargs)`: keyword binding
failure raises `TypeError` before the body runs. -/
def pythonCallTask (tn : TaskName) (ctx : NetworkTaskContext)
    (kwargs : List (String × String)) (env : ConnEnv) : Except PyExc TaskResult :=
  if signatureOk tn kwargs then runTaskFn tn ctx kwargs env
  else .error (.typeError "unexpected or missing arguments")

/-- Python `str(list)` over a list of names, as used in the parameter
error message. -/
def joinNames : List String → String
  | [] => ""
  | [x] => x
  | x :: rest => x ++ ", " ++ joinNames rest

/-- The required-versus-supplied error message of the `TypeError`
handler in `execute_network_task`. -/
def paramsErrorMsg (taskName : String) (tn : TaskName)
    (kwargs : List (String × String)) (m : String) : String :=
  "任务 '" ++ taskName ++ "' 参数错误: " ++ m ++ ". 需要的参数: [" ++
    joinNames (taskParamNames tn) ++ "], 提供的参数: [" ++
    joinNames (kwargs.map Prod.fst) ++ "]"

/-- `execute_network_task(task_name, context, **kwargs)`: unknown task
names, `TypeError` and every other exception are converted to failed
`TaskResult`s; the function is total (never raises). -/
def executeNetworkTask (taskName : String) (ctx : NetworkTaskContext)
    (kwargs : List (String × String)) (env : ConnEnv) : TaskResult :=
  match lookupTask taskName with
  | none =>
    { success := false, taskId := ctx.taskId, deviceId := ctx.deviceId,
      error := some ("不支持的任务: " ++ taskName) }
  | some tn =>
    match pythonCallTask tn ctx kwargs env with
    | .ok r => r
    | .error (.typeError m) =>
      { success := false, taskId := ctx.taskId, deviceId := ctx.deviceId,
        error := some (paramsErrorMsg taskName tn kwargs m) }
    | .error e =>
      { success := false, taskId := ctx.taskId, deviceId := ctx.deviceId,
        error := some ("执行任务 '" ++ taskName ++ "' 时发生未知错误: " ++ pyExcMsg e) }

/-- C1: for every task name, keyword-argument set and transport
outcome, `execute_network_task` returns a `TaskResult` (it is a total
function — no exception escapes): an unknown name yields a failed
result naming the task; a kwargs/signature mismatch yields a failed
result whose message lists the required and the supplied parameters;
any exception escaping the task body (adapter resolution, command
generation, connection setup, uncaught transport errors) yields a
failed result with an error message; and a `TaskResult` produced by the
task body (successful or not) is returned unchanged. -/
theorem executeNetworkTask_boundary (taskName : String) (ctx : NetworkTaskContext)
    (kwargs : List (String × String)) (env : ConnEnv) :
    (lookupTask taskName = none →
      executeNetworkTask taskName ctx kwargs env =
        { success := false, taskId := ctx.taskId, deviceId := ctx.deviceId,
          error := some ("不支持的任务: " ++ taskName) }) ∧
    (∀ tn, lookupTask taskName = some tn → signatureOk tn kwargs = false →
      executeNetworkTask taskName ctx kwargs env =
        { success := false, taskId := ctx.taskId, deviceId := ctx.deviceId,
          error := some (paramsErrorMsg taskName tn kwargs
            "unexpected or missing arguments") }) ∧
    (∀ tn e, lookupTask taskName = some tn →
      pythonCallTask tn ctx kwargs env = .error e →
      (executeNetworkTask taskName ctx kwargs env).success = false ∧
      (executeNetworkTask taskName ctx kwargs env).error.isSome) ∧
    (∀ tn r, lookupTask taskName = some tn →
      pythonCallTask tn ctx kwargs env = .ok r →
      executeNetworkTask taskName ctx kwargs env = r) := by
  refine ⟨fun h => by simp [executeNetworkTask, h], ?_, ?_, ?_⟩
  · intro tn htn hsig
    simp [executeNetworkTask, htn, pythonCallTask, hsig]
  · intro tn e htn herr
    cases e <;> simp [executeNetworkTask, htn, herr]
  · intro tn r htn hok
    simp [executeNetworkTask, htn, hok]

/-- Witness for `executeNetworkTask_boundary`: a concrete context, an
unknown task, a `ping` call without its `target` argument, a task whose
connection setup raises an uncaught error, and a normal response. -/
theorem executeNetworkTask_boundary_witness :
    (executeNetworkTask "nope" ⟨"d1", "1.1.1.1", "h3c", "u", "p", "t1"⟩ []
        (.raise (.otherError "x")) =
      { success := false, taskId := "t1", deviceId := "d1",
        error := some "不支持的任务: nope" }) ∧
    (executeNetworkTask "ping" ⟨"d1", "1.1.1.1", "h3c", "u", "p", "t1"⟩ []
        (.raise (.otherError "x"))).error =
      some (paramsErrorMsg "ping" .ping [] "unexpected or missing arguments") ∧
    ((executeNetworkTask "get_version" ⟨"d1", "1.1.1.1", "h3c", "u", "p", "t1"⟩ []
        (.raise (.otherError "boom"))).success = false) ∧
    (executeNetworkTask "get_version" ⟨"d1", "1.1.1.1", "h3c", "u", "p", "t1"⟩ []
        (.response ⟨false, "out"⟩ (.ok none)) =
      { success := true, taskId := "t1", deviceId := "d1",
        command := some "display version", rawOutput := some "out", parsedData := none }) := by
  refine ⟨?_, ?_, ?_, ?_⟩
  · exact (executeNetworkTask_boundary "nope" ⟨"d1", "1.1.1.1", "h3c", "u", "p", "t1"⟩ []
      (.raise (.otherError "x"))).1 (by decide)
  · rw [(executeNetworkTask_boundary "ping" ⟨"d1", "1.1.1.1", "h3c", "u", "p", "t1"⟩ []
      (.raise (.otherError "x"))).2.1 .ping (by decide) (by decide)]
  · exact ((executeNetworkTask_boundary "get_version" ⟨"d1", "1.1.1.1", "h3c", "u", "p", "t1"⟩ []
      (.raise (.otherError "boom"))).2.2.1 .getVersion (.otherError "boom")
        (by decide) (by decide)).1
  · exact (executeNetworkTask_boundary "get_version" ⟨"d1", "1.1.1.1", "h3c", "u", "p", "t1"⟩ []
      (.response ⟨false, "out"⟩ (.ok none))).2.2.2 .getVersion _ (by decide) (by decide)

/-! ## TaskRunner (`app/network/core/runner.py`)

`run_on_devices` resolves the inventory (a database call, abstracted as
an `Except` value), schedules `_execute_single_task` once per host,
gathers with `return_exceptions=True` (so per-host exceptions become
list entries, positionally aligned with the hosts dict), and partitions
into a success map and a failed map keyed by host name in resolved
order.  Each host of the abstracted inventory carries the outcome that
`task_function(host_config, **task_kwargs)` would produce on it. -/

/-- The per-host success record `_execute_single_task` builds. -/
structure SingleTaskSuccess (α : Type) where
  host : String
  task : String
  result : α
  status : String
deriving DecidableEq, Repr

/-- `_execute_single_task`: a normal task return is wrapped with the
host name and status; any exception is re-raised as `RuntimeError`
naming the host. -/
def executeSingleTask {α : Type} (hostName taskFnName : String)
    (outcome : Except PyExc α) : Except PyExc (SingleTaskSuccess α) :=
  match outcome with
  | .ok r => .ok { host := hostName, task := taskFnName, result := r, status := "success" }
  | .error e => .error (.runtimeError ("设备 " ++ hostName ++ " 任务执行异常: " ++ pyExcMsg e))

/-- The `processed_results` dict pair of `run_on_devices`. -/
structure RunResult (α : Type) where
  success : List (String × SingleTaskSuccess α)
  failed : List (String × String)
deriving DecidableEq, Repr

/-- The result-processing loop of `run_on_devices`: exceptions go to
the failed map (as `str(result)`), everything else to the success map,
in host order. -/
def processResults {α : Type}
    (pairs : List (String × Except PyExc (SingleTaskSuccess α))) : RunResult α :=
  { success := pairs.filterMap (fun q =>
      match q.2 with | .ok v => some (q.1, v) | .error _ => none),
    failed := pairs.filterMap (fun q =>
      match q.2 with | .error e => some (q.1, pyExcMsg e) | .ok _ => none) }

/-- `TaskRunner.run_on_devices`: empty id list raises `ValueError`;
an inventory-resolution failure is wrapped as `RuntimeError`; otherwise
every host's task is dispatched through `_execute_single_task` and the
results are partitioned. -/
def runOnDevices {α : Type} (deviceIds : List Int) (taskFnName : String)
    (inventory : Except PyExc (List (String × Except PyExc α))) :
    Except PyExc (RunResult α) :=
  if deviceIds.isEmpty then .error (.valueError "设备ID列表不能为空")
  else
    match inventory with
    | .error e => .error (.runtimeError ("任务执行失败: " ++ pyExcMsg e))
    | .ok hosts =>
      .ok (processResults (hosts.map (fun h => (h.1, executeSingleTask h.1 taskFnName h.2))))

theorem filterMap_some_eq_map {α β : Type} (f : α → β) (l : List α) :
    l.filterMap (fun x => some (f x)) = l.map f := by
  induction l with
  | nil => rfl
  | cons p rest ih => simp [List.filterMap_cons, ih]

theorem filterMap_none_eq_nil {α β : Type} (l : List α) :
    l.filterMap (fun _ => (none : Option β)) = [] := by
  induction l with
  | nil => rfl
  | cons p rest ih => simp [List.filterMap_cons, ih]

/-- C2: for a non-empty id list and a resolved inventory in which
exactly one host's task raises (the hosts before and after it all
return normally), `run_on_devices` returns — it does not raise — a
result whose success map contains exactly the non-raising hosts,
wrapped unaltered, in resolved-inventory order (N−1 entries), and whose
failed map contains exactly the raising host keyed by its name. -/
theorem runOnDevices_isolates_failure {α : Type} (deviceIds : List Int)
    (taskFnName badName : String) (e : PyExc) (pre post : List (String × α))
    (hne : deviceIds ≠ []) :
    runOnDevices deviceIds taskFnName
      (.ok (pre.map (fun p => (p.1, .ok p.2)) ++
        (badName, .error e) :: post.map (fun p => (p.1, .ok p.2)))) =
      .ok { success := (pre ++ post).map
              (fun p => (p.1, (⟨p.1, taskFnName, p.2, "success"⟩ : SingleTaskSuccess α))),
            failed := [(badName, "设备 " ++ badName ++ " 任务执行异常: " ++ pyExcMsg e)] } ∧
    ((pre ++ post).map
        (fun p => (p.1, (⟨p.1, taskFnName, p.2, "success"⟩ : SingleTaskSuccess α)))).length + 1 =
      (pre.map (fun p : String × α => (p.1, (Except.ok p.2 : Except PyExc α))) ++
        (badName, (Except.error e : Except PyExc α)) ::
          post.map (fun p => (p.1, (Except.ok p.2 : Except PyExc α)))).length := by
  constructor
  · have hne2 : deviceIds.isEmpty = false := by
      cases deviceIds with
      | nil => exact absurd rfl hne
      | cons a l => rfl
    simp [runOnDevices, hne2, processResults, List.filterMap_append,
      List.filterMap_cons, executeSingleTask, filterMap_some_eq_map, filterMap_none_eq_nil,
      pyExcMsg, Function.comp_def]
  · simp
    omega

/-- Witness for `runOnDevices_isolates_failure`: three hosts, the
middle one raising. -/
theorem runOnDevices_isolates_failure_witness :
    runOnDevices (α := Nat) [1, 2, 3] "ta"
      (.ok [("h1", .ok 10), ("h2", .error (.otherError "boom")), ("h3", .ok 30)]) =
      .ok { success := [("h1", ⟨"h1", "ta", 10, "success"⟩), ("h3", ⟨"h3", "ta", 30, "success"⟩)],
            failed := [("h2", "设备 h2 任务执行异常: boom")] } := by
  have h := (runOnDevices_isolates_failure (α := Nat) [1, 2, 3] "ta" "h2"
    (.otherError "boom") [("h1", 10)] [("h3", 30)] (by decide)).1
  simpa using h

/-! ## CLI session manager (`app/network/cli/cli_session.py`)

`CLISessionManager` holds three dicts (`sessions`, `user_sessions`,
`device_sessions`) and a per-user quota / timeout configuration.
Dicts are association lists in insertion order; the sets of session ids
in the two indices are lists.  `uuid.uuid4()` is modelled as a fresh-id
counter (`nextId`), so session ids are `Nat`; `datetime.now()` values
are passed in as `Int` timestamps measured in minutes (the unit of
`timedelta(minutes=session_timeout_minutes)`).  The owned
`CLIConnection` is not modelled: `connection.connect()` success is an
explicit argument, and `CLIConnection.disconnect` never raises (it
catches every exception), so `_close_session` on a present id always
succeeds. -/

/-- `CLISession` dataclass. -/
structure CLISession where
  sessionId : Nat
  userId : Option String
  deviceId : Int
  deviceName : String
  createdAt : Int
  lastActivity : Int
  isActive : Bool
deriving DecidableEq, Repr

/-- `CLISessionManager` state. -/
structure ManagerState where
  maxSessionsPerUser : Nat
  sessionTimeoutMinutes : Int
  sessions : List (Nat × CLISession)
  userSessions : List (String × List Nat)
  deviceSessions : List (Int × List Nat)
  nextId : Nat
deriving DecidableEq, Repr

/-- `CLISessionManager.__init__` default for `max_sessions_per_user`. -/
def defaultMaxSessionsPerUser : Nat := 5

/-- `CLISessionManager.__init__` default for `session_timeout_minutes`. -/
def defaultSessionTimeoutMinutes : Int := 30

/-- A freshly constructed manager. -/
def initManager (maxSessions : Nat) (timeoutMinutes : Int) : ManagerState :=
  { maxSessionsPerUser := maxSessions, sessionTimeoutMinutes := timeoutMinutes,
    sessions := [], userSessions := [], deviceSessions := [], nextId := 0 }

/-- Python truthiness of the optional `user_id` (`None` and the empty
string are falsy). -/
def pyTruthy : Option String → Bool
  | none => false
  | some u => !(u = "")

/-- The quota guard of `create_session`: `if user_id and user_id in
self.user_sessions` followed by `len(...) >= self.max_sessions_per_user`. -/
def quotaExceeded (s : ManagerState) (userId : Option String) : Bool :=
  pyTruthy userId &&
    (match userId with
     | some u =>
       (match alookup s.userSessions u with
        | some ids => decide (s.maxSessionsPerUser ≤ ids.length)
        | none => false)
     | none => false)

/-- The `CLISession` object built on the success path of
`create_session`. -/
def newSessionOf (s : ManagerState) (deviceId : Int) (deviceName : String)
    (userId : Option String) (now : Int) : CLISession :=
  { sessionId := s.nextId, userId := userId, deviceId := deviceId,
    deviceName := deviceName, createdAt := now, lastActivity := now,
    isActive := true }

/-- The user index after the success path: `if user_id:` create the
entry set on first use, then `add(session_id)`. -/
def userIndexAfterCreate (s : ManagerState) (userId : Option String) :
    List (String × List Nat) :=
  match userId with
  | some u =>
    if pyTruthy (some u) then
      match alookup s.userSessions u with
      | some ids => dinsert s.userSessions u (ids ++ [s.nextId])
      | none => dinsert s.userSessions u [s.nextId]
    else s.userSessions
  | none => s.userSessions

/-- The device index after the success path. -/
def deviceIndexAfterCreate (s : ManagerState) (deviceId : Int) :
    List (Int × List Nat) :=
  match alookup s.deviceSessions deviceId with
  | some ids => dinsert s.deviceSessions deviceId (ids ++ [s.nextId])
  | none => dinsert s.deviceSessions deviceId [s.nextId]

def registerSession (s : ManagerState) (deviceId : Int) (deviceName : String)
    (userId : Option String) (now : Int) : ManagerState :=
  { s with
    sessions := s.sessions ++ [(s.nextId, newSessionOf s deviceId deviceName userId now)]
    userSessions := userIndexAfterCreate s userId
    deviceSessions := deviceIndexAfterCreate s deviceId
    nextId := s.nextId + 1 }

/-- `create_session(device, user_id)`: reject when the (truthy) user
already holds `max_sessions_per_user` sessions; reject when the
connection fails to open; otherwise allocate a fresh id, store the
session and register it in the user (if truthy) and device indices. -/
def createSession (s : ManagerState) (deviceId : Int) (deviceName : String)
    (userId : Option String) (connectOk : Bool) (now : Int) :
    Option Nat × ManagerState :=
  if quotaExceeded s userId then (none, s)
  else if !connectOk then (none, s)
  else (some s.nextId, registerSession s deviceId deviceName userId now)

/-- `get_session(session_id)`: return the session and refresh
`last_activity` iff it exists and is active; otherwise `None` with no
state change. -/
def getSession (s : ManagerState) (sid : Nat) (now : Int) :
    Option CLISession × ManagerState :=
  match alookup s.sessions sid with
  | some sess =>
    if sess.isActive then
      let sess2 := { sess with lastActivity := now }
      (some sess2, { s with sessions := dinsert s.sessions sid sess2 })
    else (none, s)
  | none => (none, s)

/-- `index[key].discard(session_id)` followed by `del index[key]` when
the set becomes empty, skipped when the key is absent — the index
update pattern shared by the user and device branches of
`_close_session`. -/
def indexRemove {κ : Type} [DecidableEq κ] (idx : List (κ × List Nat)) (k : κ)
    (sid : Nat) : List (κ × List Nat) :=
  match alookup idx k with
  | some ids =>
    let ids2 := removeAll ids sid
    if ids2.isEmpty then eraseKey idx k else dinsert idx k ids2
  | none => idx

/-- `_close_session(session_id)`: `False` on an unknown id; otherwise
disconnect (never raises), drop the id from the user index (when the
user id is truthy and present) and the device index, deleting an index
entry that becomes empty, and remove the session from the map. -/
def closeSession (s : ManagerState) (sid : Nat) : Bool × ManagerState :=
  match alookup s.sessions sid with
  | none => (false, s)
  | some sess =>
    let userSessions2 :=
      match sess.userId with
      | some u =>
        if pyTruthy (some u) then indexRemove s.userSessions u sid
        else s.userSessions
      | none => s.userSessions
    let deviceSessions2 := indexRemove s.deviceSessions sess.deviceId sid
    (true,
     { s with
       sessions := eraseKey s.sessions sid
       userSessions := userSessions2
       deviceSessions := deviceSessions2 })

/-- `_cleanup_expired_sessions`: close every session whose
`last_activity` is strictly before `now - timeout`. -/
def cleanupExpiredSessions (s : ManagerState) (now : Int) : ManagerState :=
  let threshold := now - s.sessionTimeoutMinutes
  let expired := (s.sessions.filter
    (fun p => decide (p.2.lastActivity < threshold))).map Prod.fst
  expired.foldl (fun st sid => (closeSession st sid).2) s

/-- The manager operations reachable from the public surface. -/
inductive ManagerOp : Type
  | create (deviceId : Int) (deviceName : String) (userId : Option String)
      (connectOk : Bool) (now : Int)
  | get (sessionId : Nat) (now : Int)
  | close (sessionId : Nat)
  | sweep (now : Int)
deriving DecidableEq, Repr

def applyOp (s : ManagerState) : ManagerOp → ManagerState
  | .create d n u c t => (createSession s d n u c t).2
  | .get sid t => (getSession s sid t).2
  | .close sid => (closeSession s sid).2
  | .sweep t => cleanupExpiredSessions s t

/-- A manager state reached from a fresh manager by a sequence of
operations. -/
def runOps (maxSessions : Nat) (timeoutMinutes : Int) (ops : List ManagerOp) :
    ManagerState :=
  ops.foldl applyOp (initManager maxSessions timeoutMinutes)

/-! ### Association-list lemmas -/

theorem alookup_dinsert {α β : Type} [DecidableEq α] (l : List (α × β)) (a : α) (b : β)
    (x : α) : alookup (dinsert l a b) x = if x = a then some b else alookup l x := by
  induction l with
  | nil =>
    by_cases hx : x = a
    · subst hx
      simp [dinsert, alookup]
    · have hax : ¬(a = x) := fun h => hx h.symm
      simp [dinsert, alookup, hx, hax]
  | cons p rest ih =>
    by_cases hpa : p.1 = a
    · by_cases hx : x = a
      · subst hx
        simp [dinsert, alookup, hpa]
      · have hax : ¬(a = x) := fun h => hx h.symm
        have hpx : ¬(p.1 = x) := by rw [hpa]; exact hax
        simp [dinsert, alookup, hpa, hax, hx, hpx]
    · by_cases hpx : p.1 = x
      · have hx : ¬(x = a) := by rw [← hpx]; exact fun h => hpa h
        simp [dinsert, alookup, hpa, hpx, hx]
      · simp [dinsert, alookup, hpa, hpx, ih]

theorem alookup_eraseKey {α β : Type} [DecidableEq α] (l : List (α × β)) (a x : α) :
    alookup (eraseKey l a) x = if x = a then none else alookup l x := by
  induction l with
  | nil => simp [eraseKey, alookup]
  | cons p rest ih =>
    by_cases hpa : p.1 = a
    · by_cases hx : x = a
      · simp only [eraseKey, hpa, if_true]
        rw [ih]
        simp [hx]
      · have hax : ¬(a = x) := fun h => hx h.symm
        have hpx : ¬(p.1 = x) := by rw [hpa]; exact hax
        simp [eraseKey, alookup, hpa, hx, hpx, hax, ih]
    · by_cases hpx : p.1 = x
      · have hx : ¬(x = a) := by rw [← hpx]; exact hpa
        simp [eraseKey, alookup, hpa, hpx, hx]
      · simp [eraseKey, alookup, hpa, hpx, ih]

theorem alookup_append {α β : Type} [DecidableEq α] (l m : List (α × β)) (x : α) :
    alookup (l ++ m) x =
      match alookup l x with
      | some v => some v
      | none => alookup m x := by
  induction l with
  | nil => simp [alookup]
  | cons p rest ih =>
    by_cases hpx : p.1 = x
    · simp [alookup, hpx]
    · simp [alookup, hpx, ih]

theorem mem_removeAll {α : Type} [DecidableEq α] (l : List α) (a x : α) :
    x ∈ removeAll l a ↔ x ∈ l ∧ x ≠ a := by
  induction l with
  | nil => simp [removeAll]
  | cons y rest ih =>
    by_cases hya : y = a
    · subst hya
      simp only [removeAll, if_true]
      rw [ih]
      constructor
      · exact fun h => ⟨List.mem_cons_of_mem _ h.1, h.2⟩
      · intro h
        rcases List.mem_cons.mp h.1 with h1 | h1
        · exact absurd h1 h.2
        · exact ⟨h1, h.2⟩
    · simp only [removeAll, hya, if_false, List.mem_cons]
      rw [ih]
      constructor
      · rintro (h | ⟨h1, h2⟩)
        · exact ⟨Or.inl h, fun hc => hya (h.symm.trans hc)⟩
        · exact ⟨Or.inr h1, h2⟩
      · rintro ⟨h1 | h1, h2⟩
        · exact Or.inl h1
        · exact Or.inr ⟨h1, h2⟩

theorem removeAll_eq_nil_iff {α : Type} [DecidableEq α] (l : List α) (a : α) :
    removeAll l a = [] ↔ ∀ x ∈ l, x = a := by
  induction l with
  | nil => simp [removeAll]
  | cons y rest ih =>
    by_cases hya : y = a
    · subst hya
      simp [removeAll, ih]
    · simp [removeAll, hya]

theorem bool_and_split {a b : Bool} (h : (a && b) = true) : a = true ∧ b = true := by
  rw [Bool.and_eq_true] at h
  exact h

theorem alookup_eq_none_of_forall_ne {α β : Type} [DecidableEq α]
    {l : List (α × β)} {a : α} (h : ∀ p ∈ l, ¬(p.1 = a)) : alookup l a = none := by
  induction l with
  | nil => rfl
  | cons p rest ih =>
    have hp := h p (List.mem_cons_self _ _)
    simp only [alookup, hp, if_false]
    exact ih (fun q hq => h q (List.mem_cons_of_mem _ hq))

theorem dinsert_keys_of_mem {α β : Type} [DecidableEq α]
    {l : List (α × β)} {a : α} (b : β) (h : a ∈ l.map Prod.fst) :
    (dinsert l a b).map Prod.fst = l.map Prod.fst := by
  induction l with
  | nil => simp at h
  | cons p rest ih =>
    by_cases hpa : p.1 = a
    · simp [dinsert, hpa]
    · simp only [List.map_cons, List.mem_cons] at h
      rcases h with h | h
      · exact absurd h.symm hpa
      · simp [dinsert, hpa, ih h]

theorem eraseKey_sublist {α β : Type} [DecidableEq α] (l : List (α × β)) (a : α) :
    List.Sublist (eraseKey l a) l := by
  induction l with
  | nil => exact List.Sublist.refl _
  | cons p rest ih =>
    by_cases hpa : p.1 = a
    · simp only [eraseKey, hpa, if_true]
      exact ih.cons _
    · simp only [eraseKey, hpa, if_false]
      exact ih.cons₂ _

/-- The index-consistency well-formedness of a manager state: every
index entry is a nonempty set of ids of stored sessions with the
matching user/device, every stored session is active and registered in
the device index (and in the user index when its user id is a non-empty
string), index user keys are non-empty strings, and session keys are
unique and below the fresh-id counter. -/
structure ManagerWF (s : ManagerState) : Prop where
  userNonempty : ∀ u ids, alookup s.userSessions u = some ids → ids ≠ [] ∧ u ≠ ""
  deviceNonempty : ∀ d ids, alookup s.deviceSessions d = some ids → ids ≠ []
  userIndexSound : ∀ u ids sid, alookup s.userSessions u = some ids → sid ∈ ids →
    ∃ sess, alookup s.sessions sid = some sess ∧ sess.userId = some u
  deviceIndexSound : ∀ d ids sid, alookup s.deviceSessions d = some ids → sid ∈ ids →
    ∃ sess, alookup s.sessions sid = some sess ∧ sess.deviceId = d
  sessionsSound : ∀ sid sess, alookup s.sessions sid = some sess →
    sess.isActive = true ∧
    (∀ u, sess.userId = some u → u ≠ "" →
      ∃ ids, alookup s.userSessions u = some ids ∧ sid ∈ ids) ∧
    (∃ ids, alookup s.deviceSessions sess.deviceId = some ids ∧ sid ∈ ids)
  keysBound : ∀ p ∈ s.sessions, p.1 < s.nextId
  keysNodup : (s.sessions.map Prod.fst).Nodup

theorem managerWF_init (maxSessions : Nat) (timeoutMinutes : Int) :
    ManagerWF (initManager maxSessions timeoutMinutes) := by
  constructor <;> simp [initManager, alookup]

theorem ManagerWF.lookup_nextId {s : ManagerState} (wf : ManagerWF s) :
    alookup s.sessions s.nextId = none :=
  alookup_eq_none_of_forall_ne (fun p hp h => absurd (h ▸ wf.keysBound p hp) (lt_irrefl _))

theorem alookup_userIndexAfterCreate (s : ManagerState) {uu : String} (huu : uu ≠ "")
    (x : String) :
    alookup (userIndexAfterCreate s (some uu)) x =
      if x = uu then some ((alookup s.userSessions uu).getD [] ++ [s.nextId])
      else alookup s.userSessions x := by
  have htr : pyTruthy (some uu) = true := by simp [pyTruthy, huu]
  cases h : alookup s.userSessions uu with
  | some ids => simp [userIndexAfterCreate, htr, h, alookup_dinsert]
  | none => simp [userIndexAfterCreate, htr, h, alookup_dinsert]

theorem alookup_deviceIndexAfterCreate (s : ManagerState) (dd : Int) (x : Int) :
    alookup (deviceIndexAfterCreate s dd) x =
      if x = dd then some ((alookup s.deviceSessions dd).getD [] ++ [s.nextId])
      else alookup s.deviceSessions x := by
  cases h : alookup s.deviceSessions dd with
  | some ids => simp [deviceIndexAfterCreate, h, alookup_dinsert]
  | none => simp [deviceIndexAfterCreate, h, alookup_dinsert]

theorem alookup_registerSession_sessions {s : ManagerState} (wf : ManagerWF s)
    (d : Int) (n : String) (u : Option String) (t : Int) (x : Nat) :
    alookup (registerSession s d n u t).sessions x =
      if x = s.nextId then some (newSessionOf s d n u t)
      else alookup s.sessions x := by
  show alookup (s.sessions ++ [(s.nextId, newSessionOf s d n u t)]) x = _
  rw [alookup_append]
  by_cases hx : x = s.nextId
  · subst hx
    rw [wf.lookup_nextId]
    simp [alookup]
  · have hnx : ¬(s.nextId = x) := fun h => hx h.symm
    cases h : alookup s.sessions x with
    | some v => simp [hx]
    | none => simp [alookup, hx, hnx]

theorem managerWF_register {s : ManagerState} (wf : ManagerWF s) (d : Int) (n : String)
    (u : Option String) (t : Int) : ManagerWF (registerSession s d n u t) := by
  have hsess2 := alookup_registerSession_sessions wf d n u t
  have husU : (registerSession s d n u t).userSessions = userIndexAfterCreate s u := rfl
  have hdsU : (registerSession s d n u t).deviceSessions = deviceIndexAfterCreate s d := rfl
  have hnew : (newSessionOf s d n u t).userId = u := rfl
  have hnewd : (newSessionOf s d n u t).deviceId = d := rfl
  have huserChar : ∀ x, alookup (userIndexAfterCreate s u) x =
      if (pyTruthy u && decide (u = some x)) = true
      then some ((alookup s.userSessions x).getD [] ++ [s.nextId])
      else alookup s.userSessions x := by
    intro x
    match u with
    | none => simp [userIndexAfterCreate, pyTruthy]
    | some uu =>
      by_cases huu : uu = ""
      · subst huu
        simp [userIndexAfterCreate, pyTruthy]
      · rw [alookup_userIndexAfterCreate s huu x]
        by_cases hx : x = uu
        · subst hx
          simp [pyTruthy, huu]
        · have hne2 : ¬(some uu = some x) := fun h => hx (Option.some_inj.mp h).symm
          simp [pyTruthy, huu, hx, hne2]
  have hfresh : ∀ {sid0 : Nat} {sess : CLISession},
      alookup s.sessions sid0 = some sess → ¬(sid0 = s.nextId) := by
    intro sid0 sess hlk hc
    rw [hc, wf.lookup_nextId] at hlk
    exact Option.noConfusion hlk
  refine ⟨?_, ?_, ?_, ?_, ?_, ?_, ?_⟩
  · -- userNonempty
    intro u0 ids0 h
    rw [husU, huserChar u0] at h
    by_cases hcond : (pyTruthy u && decide (u = some u0)) = true
    · rw [if_pos hcond] at h
      have hu : u = some u0 := of_decide_eq_true (bool_and_split hcond).2
      have htr : pyTruthy u = true := (bool_and_split hcond).1
      have hne : u0 ≠ "" := by
        intro hc
        rw [hu, hc] at htr
        simp [pyTruthy] at htr
      refine ⟨?_, hne⟩
      rw [← Option.some_inj.mp h]
      intro hc
      simpa using (List.append_eq_nil.mp hc).2
    · rw [if_neg hcond] at h
      exact wf.userNonempty u0 ids0 h
  · -- deviceNonempty
    intro d0 ids0 h
    rw [hdsU, alookup_deviceIndexAfterCreate s d d0] at h
    by_cases hd0 : d0 = d
    · rw [if_pos hd0] at h
      rw [← Option.some_inj.mp h]
      intro hc
      simpa using (List.append_eq_nil.mp hc).2
    · rw [if_neg hd0] at h
      exact wf.deviceNonempty d0 ids0 h
  · -- userIndexSound
    intro u0 ids0 sid0 h hmem
    rw [husU, huserChar u0] at h
    by_cases hcond : (pyTruthy u && decide (u = some u0)) = true
    · rw [if_pos hcond] at h
      have hu : u = some u0 := of_decide_eq_true (bool_and_split hcond).2
      rw [← Option.some_inj.mp h] at hmem
      rcases List.mem_append.mp hmem with hold | hnewm
      · cases halo : alookup s.userSessions u0 with
        | none =>
          rw [halo] at hold
          simp at hold
        | some ids =>
          rw [halo, Option.getD_some] at hold
          obtain ⟨sess, hlk, huid⟩ := wf.userIndexSound u0 ids sid0 halo hold
          exact ⟨sess, by rw [hsess2, if_neg (hfresh hlk)]; exact hlk, huid⟩
      · have hsid : sid0 = s.nextId := by simpa using hnewm
        exact ⟨newSessionOf s d n u t, by rw [hsess2, if_pos hsid], by rw [hnew, hu]⟩
    · rw [if_neg hcond] at h
      obtain ⟨sess, hlk, huid⟩ := wf.userIndexSound u0 ids0 sid0 h hmem
      exact ⟨sess, by rw [hsess2, if_neg (hfresh hlk)]; exact hlk, huid⟩
  · -- deviceIndexSound
    intro d0 ids0 sid0 h hmem
    rw [hdsU, alookup_deviceIndexAfterCreate s d d0] at h
    by_cases hd0 : d0 = d
    · rw [if_pos hd0] at h
      rw [← Option.some_inj.mp h] at hmem
      rcases List.mem_append.mp hmem with hold | hnewm
      · cases halo : alookup s.deviceSessions d with
        | none =>
          rw [halo] at hold
          simp at hold
        | some ids =>
          rw [halo, Option.getD_some] at hold
          obtain ⟨sess, hlk, hdid⟩ := wf.deviceIndexSound d ids sid0 halo hold
          refine ⟨sess, by rw [hsess2, if_neg (hfresh hlk)]; exact hlk, ?_⟩
          rw [hdid]
          exact hd0.symm
      · have hsid : sid0 = s.nextId := by simpa using hnewm
        refine ⟨newSessionOf s d n u t, by rw [hsess2, if_pos hsid], ?_⟩
        rw [hnewd]
        exact hd0.symm
    · rw [if_neg hd0] at h
      obtain ⟨sess, hlk, hdid⟩ := wf.deviceIndexSound d0 ids0 sid0 h hmem
      exact ⟨sess, by rw [hsess2, if_neg (hfresh hlk)]; exact hlk, hdid⟩
  · -- sessionsSound
    intro sid0 sess0 h
    rw [hsess2] at h
    by_cases hsid : sid0 = s.nextId
    · rw [if_pos hsid] at h
      have hs0 : sess0 = newSessionOf s d n u t := (Option.some_inj.mp h).symm
      subst hs0
      refine ⟨rfl, ?_, ?_⟩
      · intro u1 hu1 hne1
        rw [hnew] at hu1
        have hcond : (pyTruthy u && decide (u = some u1)) = true := by
          rw [hu1]
          simp [pyTruthy, hne1]
        refine ⟨(alookup s.userSessions u1).getD [] ++ [s.nextId], ?_, ?_⟩
        · rw [husU, huserChar u1, if_pos hcond]
        · rw [hsid]
          exact List.mem_append_right _ (by simp)
      · refine ⟨(alookup s.deviceSessions d).getD [] ++ [s.nextId], ?_, ?_⟩
        · rw [hdsU, hnewd, alookup_deviceIndexAfterCreate s d d, if_pos rfl]
        · rw [hsid]
          exact List.mem_append_right _ (by simp)
    · rw [if_neg hsid] at h
      obtain ⟨hact, huser, hdev⟩ := wf.sessionsSound sid0 sess0 h
      refine ⟨hact, ?_, ?_⟩
      · intro u1 hu1 hne1
        obtain ⟨ids, hids, hmem⟩ := huser u1 hu1 hne1
        rw [husU, huserChar u1]
        by_cases hcond : (pyTruthy u && decide (u = some u1)) = true
        · rw [if_pos hcond]
          refine ⟨_, rfl, ?_⟩
          rw [hids, Option.getD_some]
          exact List.mem_append_left _ hmem
        · rw [if_neg hcond]
          exact ⟨ids, hids, hmem⟩
      · obtain ⟨ids, hids, hmem⟩ := hdev
        rw [hdsU, alookup_deviceIndexAfterCreate s d]
        by_cases hd0 : sess0.deviceId = d
        · rw [if_pos hd0]
          refine ⟨_, rfl, ?_⟩
          have hval : (alookup s.deviceSessions d).getD [] = ids := by
            rw [← hd0, hids]
            rfl
          rw [hval]
          exact List.mem_append_left _ hmem
        · rw [if_neg hd0]
          exact ⟨ids, hids, hmem⟩
  · -- keysBound
    intro p hp
    show p.1 < s.nextId + 1
    rcases List.mem_append.mp hp with hold | hnewm
    · exact Nat.lt_succ_of_lt (wf.keysBound p hold)
    · have hpe : p = (s.nextId, newSessionOf s d n u t) := by simpa using hnewm
      rw [hpe]
      exact Nat.lt_succ_self _
  · -- keysNodup
    show (List.map Prod.fst
      (s.sessions ++ [(s.nextId, newSessionOf s d n u t)])).Nodup
    rw [List.map_append, List.nodup_append]
    refine ⟨wf.keysNodup, List.nodup_singleton _, ?_⟩
    intro a ha hb
    simp only [List.map_cons, List.map_nil, List.mem_singleton] at hb
    rw [hb] at ha
    obtain ⟨p, hp, hpe⟩ := List.mem_map.mp ha
    exact absurd (hpe ▸ wf.keysBound p hp) (lt_irrefl _)

theorem alookup_indexRemove {κ : Type} [DecidableEq κ] (idx : List (κ × List Nat))
    (k : κ) (sid : Nat) (x : κ) :
    alookup (indexRemove idx k sid) x =
      if x = k then
        (alookup idx k).bind (fun ids =>
          if (removeAll ids sid).isEmpty = true then none else some (removeAll ids sid))
      else alookup idx x := by
  cases h : alookup idx k with
  | none =>
    simp only [indexRemove, h]
    by_cases hx : x = k
    · subst hx
      simp [h]
    · simp [hx]
  | some ids =>
    simp only [indexRemove, h]
    by_cases he : (removeAll ids sid).isEmpty = true
    · have he2 : removeAll ids sid = [] := by simpa using he
      rw [if_pos he, alookup_eraseKey]
      by_cases hx : x = k
      · simp [hx, h, he2]
      · simp [hx]
    · have he2 : ¬(removeAll ids sid = []) := by simpa using he
      rw [if_neg he, alookup_dinsert]
      by_cases hx : x = k
      · simp [hx, h, he2]
      · simp [hx]

theorem alookup_indexRemove_mem {κ : Type} [DecidableEq κ]
    {idx : List (κ × List Nat)} {k : κ} {sid : Nat} {x : κ} {ids0 : List Nat}
    {sid0 : Nat} (h0 : alookup (indexRemove idx k sid) x = some ids0)
    (hm : sid0 ∈ ids0) :
    ∃ ids, alookup idx x = some ids ∧ sid0 ∈ ids ∧ (x = k → sid0 ≠ sid) := by
  rw [alookup_indexRemove] at h0
  by_cases hx : x = k
  · rw [if_pos hx] at h0
    cases hk : alookup idx k with
    | none =>
      rw [hk] at h0
      simp at h0
    | some ids =>
      rw [hk] at h0
      simp only [Option.some_bind] at h0
      by_cases he : (removeAll ids sid).isEmpty = true
      · rw [if_pos he] at h0
        exact absurd h0 (by simp)
      · rw [if_neg he] at h0
        rw [← Option.some_inj.mp h0] at hm
        obtain ⟨hmem, hne⟩ := (mem_removeAll _ _ _).mp hm
        exact ⟨ids, hx ▸ hk, hmem, fun _ => hne⟩
  · rw [if_neg hx] at h0
    exact ⟨ids0, h0, hm, fun hc => absurd hc hx⟩

theorem alookup_indexRemove_keep {κ : Type} [DecidableEq κ]
    {idx : List (κ × List Nat)} {k : κ} {sid : Nat} {x : κ} {ids : List Nat}
    (hids : alookup idx x = some ids) {sid0 : Nat} (hm : sid0 ∈ ids)
    (hne : sid0 ≠ sid) :
    ∃ ids2, alookup (indexRemove idx k sid) x = some ids2 ∧ sid0 ∈ ids2 := by
  rw [alookup_indexRemove]
  by_cases hx : x = k
  · rw [if_pos hx, ← hx, hids]
    simp only [Option.some_bind]
    have hm2 : sid0 ∈ removeAll ids sid := (mem_removeAll _ _ _).mpr ⟨hm, hne⟩
    have hne2 : ¬((removeAll ids sid).isEmpty = true) := by
      intro hc
      rw [List.isEmpty_iff] at hc
      rw [hc] at hm2
      simp at hm2
    rw [if_neg hne2]
    exact ⟨removeAll ids sid, rfl, hm2⟩
  · rw [if_neg hx]
    exact ⟨ids, hids, hm⟩

theorem alookup_indexRemove_entry {κ : Type} [DecidableEq κ]
    {idx : List (κ × List Nat)} {k : κ} {sid : Nat} {x : κ} {ids0 : List Nat}
    (h0 : alookup (indexRemove idx k sid) x = some ids0) :
    ∃ ids, alookup idx x = some ids ∧ (ids0 = ids ∨ ids0 ≠ []) := by
  rw [alookup_indexRemove] at h0
  by_cases hx : x = k
  · rw [if_pos hx] at h0
    cases hk : alookup idx k with
    | none =>
      rw [hk] at h0
      simp at h0
    | some ids =>
      rw [hk] at h0
      simp only [Option.some_bind] at h0
      by_cases he : (removeAll ids sid).isEmpty = true
      · rw [if_pos he] at h0
        exact absurd h0 (by simp)
      · rw [if_neg he] at h0
        refine ⟨ids, hx ▸ hk, Or.inr ?_⟩
        rw [← Option.some_inj.mp h0]
        intro hc
        exact he (by rw [hc]; rfl)
  · rw [if_neg hx] at h0
    exact ⟨ids0, h0, Or.inl rfl⟩

theorem managerWF_get {s : ManagerState} (wf : ManagerWF s) (sid : Nat) (t : Int) :
    ManagerWF (getSession s sid t).2 := by
  cases h : alookup s.sessions sid with
  | none =>
    have hst : (getSession s sid t).2 = s := by simp [getSession, h]
    rw [hst]
    exact wf
  | some sess =>
    have hact : sess.isActive = true := (wf.sessionsSound sid sess h).1
    have hst : (getSession s sid t).2 =
        { s with sessions := dinsert s.sessions sid { sess with lastActivity := t } } := by
      simp [getSession, h, hact]
    rw [hst]
    have hmemk : sid ∈ s.sessions.map Prod.fst :=
      List.mem_map.mpr ⟨(sid, sess), alookup_mem h, rfl⟩
    have hchar : ∀ x, alookup (dinsert s.sessions sid { sess with lastActivity := t }) x =
        if x = sid then some { sess with lastActivity := t } else alookup s.sessions x :=
      fun x => alookup_dinsert _ _ _ x
    refine ⟨wf.userNonempty, wf.deviceNonempty, ?_, ?_, ?_, ?_, ?_⟩
    · intro u0 ids0 sid0 h0 hm
      obtain ⟨sess1, hlk, huid⟩ := wf.userIndexSound u0 ids0 sid0 h0 hm
      by_cases hx : sid0 = sid
      · subst hx
        have hs1 : sess1 = sess := by
          rw [hlk] at h
          exact Option.some_inj.mp h

        refine ⟨{ sess with lastActivity := t }, by rw [hchar, if_pos rfl], ?_⟩
        show sess.userId = some u0
        rw [← hs1]
        exact huid
      · exact ⟨sess1, by rw [hchar, if_neg hx]; exact hlk, huid⟩
    · intro d0 ids0 sid0 h0 hm
      obtain ⟨sess1, hlk, hdid⟩ := wf.deviceIndexSound d0 ids0 sid0 h0 hm
      by_cases hx : sid0 = sid
      · subst hx
        have hs1 : sess1 = sess := by
          rw [hlk] at h
          exact Option.some_inj.mp h
        refine ⟨{ sess with lastActivity := t }, by rw [hchar, if_pos rfl], ?_⟩
        show sess.deviceId = d0
        rw [← hs1]
        exact hdid
      · exact ⟨sess1, by rw [hchar, if_neg hx]; exact hlk, hdid⟩
    · intro sid0 sess0 h0
      rw [hchar] at h0
      by_cases hx : sid0 = sid
      · rw [if_pos hx] at h0
        obtain ⟨_, huser, hdev⟩ := wf.sessionsSound sid sess h
        rw [← Option.some_inj.mp h0]
        refine ⟨hact, ?_, ?_⟩
        · intro u1 hu1 hne1
          have hu1b : sess.userId = some u1 := hu1
          obtain ⟨ids, hids, hm⟩ := huser u1 hu1b hne1
          exact ⟨ids, hids, hx ▸ hm⟩
        · obtain ⟨ids, hids, hm⟩ := hdev
          exact ⟨ids, hids, hx ▸ hm⟩
      · rw [if_neg hx] at h0
        exact wf.sessionsSound sid0 sess0 h0
    · intro p hp
      have hpk : p.1 ∈ (dinsert s.sessions sid { sess with lastActivity := t }).map Prod.fst :=
        List.mem_map.mpr ⟨p, hp, rfl⟩
      rw [dinsert_keys_of_mem _ hmemk] at hpk
      obtain ⟨q, hq, hqe⟩ := List.mem_map.mp hpk
      show p.1 < s.nextId
      rw [← hqe]
      exact wf.keysBound q hq
    · show ((dinsert s.sessions sid { sess with lastActivity := t }).map Prod.fst).Nodup
      rw [dinsert_keys_of_mem _ hmemk]
      exact wf.keysNodup

theorem managerWF_close {s : ManagerState} (wf : ManagerWF s) (sid : Nat) :
    ManagerWF (closeSession s sid).2 := by
  cases h : alookup s.sessions sid with
  | none =>
    have hst : (closeSession s sid).2 = s := by simp [closeSession, h]
    rw [hst]
    exact wf
  | some sess =>
    have hst : (closeSession s sid).2 =
        { s with
          sessions := eraseKey s.sessions sid
          userSessions :=
            match sess.userId with
            | some u =>
              if pyTruthy (some u) then indexRemove s.userSessions u sid
              else s.userSessions
            | none => s.userSessions
          deviceSessions := indexRemove s.deviceSessions sess.deviceId sid } := by
      simp [closeSession, h]
    rw [hst]
    have hsl : ∀ x, alookup (eraseKey s.sessions sid) x =
        if x = sid then none else alookup s.sessions x :=
      fun x => alookup_eraseKey _ _ _
    have huniq : ∀ {sid0 : Nat} {sess1 : CLISession},
        alookup s.sessions sid0 = some sess1 → sid0 = sid → sess1 = sess := by
      intro sid0 sess1 h1 he
      rw [he, h] at h1
      exact Option.some_inj.mp h1.symm
    have hKB : ∀ p ∈ eraseKey s.sessions sid, p.1 < s.nextId :=
      fun p hp => wf.keysBound p ((eraseKey_sublist _ _).subset hp)
    have hKN : ((eraseKey s.sessions sid).map Prod.fst).Nodup :=
      List.Nodup.sublist ((eraseKey_sublist s.sessions sid).map Prod.fst) wf.keysNodup
    -- device-index facts (always an indexRemove)
    have hDN : ∀ d0 ids0, alookup (indexRemove s.deviceSessions sess.deviceId sid) d0 =
        some ids0 → ids0 ≠ [] := by
      intro d0 ids0 h0
      obtain ⟨ids, hids, hcase⟩ := alookup_indexRemove_entry h0
      rcases hcase with hcase | hcase
      · rw [hcase]
        exact wf.deviceNonempty d0 ids hids
      · exact hcase
    have hDS : ∀ d0 ids0 sid0,
        alookup (indexRemove s.deviceSessions sess.deviceId sid) d0 = some ids0 →
        sid0 ∈ ids0 →
        ∃ sess1, alookup (eraseKey s.sessions sid) sid0 = some sess1 ∧
          sess1.deviceId = d0 := by
      intro d0 ids0 sid0 h0 hm
      obtain ⟨ids, hids, hmem, hcond⟩ := alookup_indexRemove_mem h0 hm
      obtain ⟨sess1, hlk, hdid⟩ := wf.deviceIndexSound d0 ids sid0 hids hmem
      have hne : ¬(sid0 = sid) := by
        intro he
        have hs1 : sess1 = sess := huniq hlk he
        by_cases hdk : d0 = sess.deviceId
        · exact hcond hdk he
        · exact hdk (by rw [← hdid, hs1])
      exact ⟨sess1, by rw [hsl, if_neg hne]; exact hlk, hdid⟩
    rcases hui : sess.userId with _ | u
    · -- anonymous session: user index unchanged
      simp only [hui]
      refine ⟨wf.userNonempty, hDN, ?_, hDS, ?_, hKB, hKN⟩
      · intro u0 ids0 sid0 h0 hm
        obtain ⟨sess1, hlk, huid⟩ := wf.userIndexSound u0 ids0 sid0 h0 hm
        have hne : ¬(sid0 = sid) := by
          intro he
          have hs1 : sess1 = sess := huniq hlk he
          rw [hs1, hui] at huid
          exact Option.noConfusion huid
        exact ⟨sess1, by rw [hsl, if_neg hne]; exact hlk, huid⟩
      · intro sid0 sess0 h0
        rw [hsl] at h0
        by_cases hx : sid0 = sid
        · rw [if_pos hx] at h0
          exact Option.noConfusion h0
        · rw [if_neg hx] at h0
          obtain ⟨hact, huser, hdev⟩ := wf.sessionsSound sid0 sess0 h0
          refine ⟨hact, ?_, ?_⟩
          · intro u1 hu1 hne1
            exact huser u1 hu1 hne1
          · obtain ⟨ids, hids, hm⟩ := hdev
            exact alookup_indexRemove_keep hids hm hx
    · -- session bound to user `u`
      simp only [hui]
      by_cases htr : pyTruthy (some u) = true
      · rw [if_pos htr]
        have hUN : ∀ u0 ids0, alookup (indexRemove s.userSessions u sid) u0 = some ids0 →
            ids0 ≠ [] ∧ u0 ≠ "" := by
          intro u0 ids0 h0
          obtain ⟨ids, hids, hcase⟩ := alookup_indexRemove_entry h0
          obtain ⟨hne, hne2⟩ := wf.userNonempty u0 ids hids
          rcases hcase with hcase | hcase
          · rw [hcase]
            exact ⟨hne, hne2⟩
          · exact ⟨hcase, hne2⟩
        refine ⟨hUN, hDN, ?_, hDS, ?_, hKB, hKN⟩
        · intro u0 ids0 sid0 h0 hm
          obtain ⟨ids, hids, hmem, hcond⟩ := alookup_indexRemove_mem h0 hm
          obtain ⟨sess1, hlk, huid⟩ := wf.userIndexSound u0 ids sid0 hids hmem
          have hne : ¬(sid0 = sid) := by
            intro he
            have hs1 : sess1 = sess := huniq hlk he
            by_cases huk : u0 = u
            · exact hcond huk he
            · rw [hs1, hui] at huid
              exact huk (Option.some_inj.mp huid).symm
          exact ⟨sess1, by rw [hsl, if_neg hne]; exact hlk, huid⟩
        · intro sid0 sess0 h0
          rw [hsl] at h0
          by_cases hx : sid0 = sid
          · rw [if_pos hx] at h0
            exact Option.noConfusion h0
          · rw [if_neg hx] at h0
            obtain ⟨hact, huser, hdev⟩ := wf.sessionsSound sid0 sess0 h0
            refine ⟨hact, ?_, ?_⟩
            · intro u1 hu1 hne1
              obtain ⟨ids, hids, hm⟩ := huser u1 hu1 hne1
              exact alookup_indexRemove_keep hids hm hx
            · obtain ⟨ids, hids, hm⟩ := hdev
              exact alookup_indexRemove_keep hids hm hx
      · rw [if_neg htr]
        have hue : u = "" := by
          by_cases hc : u = ""
          · exact hc
          · exact absurd (by simp [pyTruthy, hc]) htr
        refine ⟨wf.userNonempty, hDN, ?_, hDS, ?_, hKB, hKN⟩
        · intro u0 ids0 sid0 h0 hm
          obtain ⟨sess1, hlk, huid⟩ := wf.userIndexSound u0 ids0 sid0 h0 hm
          have hne : ¬(sid0 = sid) := by
            intro he
            have hs1 : sess1 = sess := huniq hlk he
            rw [hs1, hui] at huid
            have : u0 = u := (Option.some_inj.mp huid).symm
            exact (wf.userNonempty u0 ids0 h0).2 (this.trans hue)
          exact ⟨sess1, by rw [hsl, if_neg hne]; exact hlk, huid⟩
        · intro sid0 sess0 h0
          rw [hsl] at h0
          by_cases hx : sid0 = sid
          · rw [if_pos hx] at h0
            exact Option.noConfusion h0
          · rw [if_neg hx] at h0
            obtain ⟨hact, huser, hdev⟩ := wf.sessionsSound sid0 sess0 h0
            refine ⟨hact, huser, ?_⟩
            obtain ⟨ids, hids, hm⟩ := hdev
            exact alookup_indexRemove_keep hids hm hx

theorem managerWF_create {s : ManagerState} (wf : ManagerWF s) (d : Int) (n : String)
    (u : Option String) (c : Bool) (t : Int) :
    ManagerWF (createSession s d n u c t).2 := by
  by_cases hq : quotaExceeded s u = true
  · have hst : (createSession s d n u c t).2 = s := by simp [createSession, hq]
    rw [hst]
    exact wf
  · by_cases hc : c = true
    · have hst : (createSession s d n u c t).2 = registerSession s d n u t := by
        simp [createSession, hq, hc]
      rw [hst]
      exact managerWF_register wf d n u t
    · have hcf : c = false := by
        cases c
        · rfl
        · exact absurd rfl hc
      have hst : (createSession s d n u c t).2 = s := by
        simp [createSession, hq, hcf]
      rw [hst]
      exact wf

theorem managerWF_foldl_close {sids : List Nat} :
    ∀ {s : ManagerState}, ManagerWF s →
      ManagerWF (sids.foldl (fun st x => (closeSession st x).2) s) := by
  induction sids with
  | nil => exact fun wf => wf
  | cons y rest ih =>
    intro s wf
    exact ih (managerWF_close wf y)

theorem managerWF_sweep {s : ManagerState} (wf : ManagerWF s) (t : Int) :
    ManagerWF (cleanupExpiredSessions s t) :=
  managerWF_foldl_close wf

theorem managerWF_applyOp {s : ManagerState} (wf : ManagerWF s) (op : ManagerOp) :
    ManagerWF (applyOp s op) := by
  cases op with
  | create d n u c t => exact managerWF_create wf d n u c t
  | get sid t => exact managerWF_get wf sid t
  | close sid => exact managerWF_close wf sid
  | sweep t => exact managerWF_sweep wf t

theorem managerWF_runOps (maxSessions : Nat) (timeoutMinutes : Int)
    (ops : List ManagerOp) : ManagerWF (runOps maxSessions timeoutMinutes ops) := by
  suffices h : ∀ (l : List ManagerOp) (s : ManagerState), ManagerWF s →
      ManagerWF (l.foldl applyOp s) by
    exact h ops _ (managerWF_init maxSessions timeoutMinutes)
  intro l
  induction l with
  | nil => exact fun s wf => wf
  | cons op rest ih => exact fun s wf => ih _ (managerWF_applyOp wf op)

theorem alookup_unique {α β : Type} [DecidableEq α] {l : List (α × β)}
    (hnd : (l.map Prod.fst).Nodup) {x : α} {v w : β}
    (h : alookup l x = some v) (hm : (x, w) ∈ l) : w = v := by
  induction l with
  | nil => simp at hm
  | cons p rest ih =>
    rw [List.map_cons, List.nodup_cons] at hnd
    rcases List.mem_cons.mp hm with he | hm2
    · rw [← he] at h
      simp only [alookup, if_pos rfl] at h
      exact Option.some_inj.mp h
    · by_cases hpx : p.1 = x
      · exfalso
        apply hnd.1
        rw [hpx]
        exact List.mem_map.mpr ⟨(x, w), hm2, rfl⟩
      · simp only [alookup, hpx, if_false] at h
        exact ih hnd.2 h hm2

theorem closeSession_lookup_self (s : ManagerState) (y : Nat) :
    alookup ((closeSession s y).2).sessions y = none := by
  cases h : alookup s.sessions y with
  | none =>
    have hst : (closeSession s y).2 = s := by simp [closeSession, h]
    rw [hst]
    exact h
  | some sess =>
    have hst : ((closeSession s y).2).sessions = eraseKey s.sessions y := by
      simp [closeSession, h]
    rw [hst, alookup_eraseKey, if_pos rfl]

theorem closeSession_lookup_other (s : ManagerState) {y x : Nat} (hxy : ¬(x = y)) :
    alookup ((closeSession s y).2).sessions x = alookup s.sessions x := by
  cases h : alookup s.sessions y with
  | none =>
    have hst : (closeSession s y).2 = s := by simp [closeSession, h]
    rw [hst]
  | some sess =>
    have hst : ((closeSession s y).2).sessions = eraseKey s.sessions y := by
      simp [closeSession, h]
    rw [hst, alookup_eraseKey, if_neg hxy]

theorem closeSession_lookup_none (s : ManagerState) (y : Nat) {x : Nat}
    (h : alookup s.sessions x = none) :
    alookup ((closeSession s y).2).sessions x = none := by
  by_cases hxy : x = y
  · rw [hxy]
    exact closeSession_lookup_self s y
  · rw [closeSession_lookup_other s hxy]
    exact h

theorem foldl_close_lookup_none {sids : List Nat} :
    ∀ {s : ManagerState} {x : Nat}, alookup s.sessions x = none →
      alookup ((sids.foldl (fun st y => (closeSession st y).2) s)).sessions x = none := by
  induction sids with
  | nil => exact fun h => h
  | cons y rest ih =>
    intro s x h
    exact ih (closeSession_lookup_none s y h)

theorem foldl_close_lookup_mem {sids : List Nat} :
    ∀ {s : ManagerState} {x : Nat}, x ∈ sids →
      alookup ((sids.foldl (fun st y => (closeSession st y).2) s)).sessions x = none := by
  induction sids with
  | nil => intro s x h; simp at h
  | cons y rest ih =>
    intro s x h
    rw [List.foldl_cons]
    by_cases hxy : x = y
    · exact foldl_close_lookup_none (by rw [hxy]; exact closeSession_lookup_self s y)
    · rcases List.mem_cons.mp h with he | hm
      · exact absurd he hxy
      · exact ih hm

theorem foldl_close_lookup_notmem {sids : List Nat} :
    ∀ {s : ManagerState} {x : Nat}, x ∉ sids →
      alookup ((sids.foldl (fun st y => (closeSession st y).2) s)).sessions x =
        alookup s.sessions x := by
  induction sids with
  | nil => exact fun _ => rfl
  | cons y rest ih =>
    intro s x h
    have hxy : ¬(x = y) := fun hc => h (hc ▸ List.mem_cons_self _ _)
    have hrest : x ∉ rest := fun hc => h (List.mem_cons_of_mem _ hc)
    rw [List.foldl_cons, ih hrest, closeSession_lookup_other s hxy]

theorem foldl_close_lookup_cases {sids : List Nat} :
    ∀ {s : ManagerState} {x : Nat},
      alookup ((sids.foldl (fun st y => (closeSession st y).2) s)).sessions x = none ∨
      alookup ((sids.foldl (fun st y => (closeSession st y).2) s)).sessions x =
        alookup s.sessions x := by
  induction sids with
  | nil => exact Or.inr rfl
  | cons y rest ih =>
    intro s x
    rcases @ih ((closeSession s y).2) x with h | h
    · exact Or.inl h
    · by_cases hxy : x = y
      · rw [hxy] at h ⊢
        exact Or.inl (h.trans (closeSession_lookup_self s y))
      · exact Or.inr (h.trans (closeSession_lookup_other s hxy))

/-- Membership in the expired list computed by the sweep. -/
theorem mem_expired_of_lookup {s : ManagerState} (hnd : (s.sessions.map Prod.fst).Nodup)
    {sid : Nat} {sess : CLISession} (h : alookup s.sessions sid = some sess)
    (threshold : Int) :
    sid ∈ (s.sessions.filter (fun p => decide (p.2.lastActivity < threshold))).map
        Prod.fst ↔ sess.lastActivity < threshold := by
  constructor
  · intro hm
    obtain ⟨p, hp, hpe⟩ := List.mem_map.mp hm
    have hpmem := List.mem_filter.mp hp
    have hpv : p.2 = sess := by
      have : (sid, p.2) ∈ s.sessions := by
        rw [← hpe]
        exact hpmem.1
      exact alookup_unique hnd h this
    rw [← hpv]
    exact of_decide_eq_true hpmem.2
  · intro hlt
    refine List.mem_map.mpr ⟨(sid, sess), List.mem_filter.mpr ⟨alookup_mem h, ?_⟩, rfl⟩
    exact decide_eq_true hlt

/-- The session-index invariant exactly as claimed: user-index
membership coincides with stored-session user ids for every user id
(including the empty string), device-index membership coincides with
stored-session device ids, stored sessions are active, and no index
entry is empty. -/
def claimedIndexInvariant (s : ManagerState) : Prop :=
  (∀ u sid,
    (∃ ids, alookup s.userSessions u = some ids ∧ sid ∈ ids) ↔
    (∃ sess, alookup s.sessions sid = some sess ∧ sess.userId = some u)) ∧
  (∀ d sid,
    (∃ ids, alookup s.deviceSessions d = some ids ∧ sid ∈ ids) ↔
    (∃ sess, alookup s.sessions sid = some sess ∧ sess.deviceId = d)) ∧
  (∀ sid sess, alookup s.sessions sid = some sess → sess.isActive = true) ∧
  (∀ u ids, alookup s.userSessions u = some ids → ids ≠ []) ∧
  (∀ d ids, alookup s.deviceSessions d = some ids → ids ≠ [])

/-- C10 counterexample: `create_session` with the empty-string user id
(`user_id=""` is falsy in Python) stores the session with
`user_id = ""` but registers nothing in the user index, so after that
single operation the claimed invariant fails: session `0` has user id
`""` yet appears in no user-index set. -/
theorem claimedIndexInvariant_counterexample :
    ¬ claimedIndexInvariant (runOps 5 30 [.create 1 "dev" (some "") true 0]) := by
  intro hinv
  have hs : alookup (runOps 5 30 [.create 1 "dev" (some "") true 0]).sessions 0 =
      some { sessionId := 0, userId := some "", deviceId := 1, deviceName := "dev",
             createdAt := 0, lastActivity := 0, isActive := true } := by
    decide
  obtain ⟨ids, hids, _⟩ := (hinv.1 "" 0).mpr ⟨_, hs, rfl⟩
  have hu : (runOps 5 30 [.create 1 "dev" (some "") true 0]).userSessions = [] := by
    decide
  rw [hu] at hids
  exact Option.noConfusion hids

/-- C10 (amended): after any operation sequence from a fresh manager, a
session id appears in a user's index set iff it is a key of the
sessions map whose session carries that user id — for every non-empty
user id; a create with the empty-string user id is treated as
anonymous (Python truthiness) and is stored without a user-index
entry.  Device-index membership coincides with stored device ids for
every device, every stored session is active, and no index entry maps
to an empty set. -/
theorem sessionManager_index_invariant (maxSessions : Nat) (timeoutMinutes : Int)
    (ops : List ManagerOp) :
    (∀ u sid, u ≠ "" →
      ((∃ ids, alookup (runOps maxSessions timeoutMinutes ops).userSessions u =
          some ids ∧ sid ∈ ids) ↔
       (∃ sess, alookup (runOps maxSessions timeoutMinutes ops).sessions sid =
          some sess ∧ sess.userId = some u))) ∧
    (∀ d sid,
      (∃ ids, alookup (runOps maxSessions timeoutMinutes ops).deviceSessions d =
          some ids ∧ sid ∈ ids) ↔
      (∃ sess, alookup (runOps maxSessions timeoutMinutes ops).sessions sid =
          some sess ∧ sess.deviceId = d)) ∧
    (∀ sid sess, alookup (runOps maxSessions timeoutMinutes ops).sessions sid =
        some sess → sess.isActive = true) ∧
    (∀ u ids, alookup (runOps maxSessions timeoutMinutes ops).userSessions u =
        some ids → ids ≠ []) ∧
    (∀ d ids, alookup (runOps maxSessions timeoutMinutes ops).deviceSessions d =
        some ids → ids ≠ []) := by
  have wf := managerWF_runOps maxSessions timeoutMinutes ops
  refine ⟨?_, ?_, ?_, ?_, ?_⟩
  · intro u sid hne
    constructor
    · rintro ⟨ids, hids, hm⟩
      exact wf.userIndexSound u ids sid hids hm
    · rintro ⟨sess, hlk, huid⟩
      exact (wf.sessionsSound sid sess hlk).2.1 u huid hne
  · intro d sid
    constructor
    · rintro ⟨ids, hids, hm⟩
      exact wf.deviceIndexSound d ids sid hids hm
    · rintro ⟨sess, hlk, hdid⟩
      obtain ⟨ids, hids, hm⟩ := (wf.sessionsSound sid sess hlk).2.2
      exact ⟨ids, hdid ▸ hids, hm⟩
  · exact fun sid sess hlk => (wf.sessionsSound sid sess hlk).1
  · exact fun u ids hids => (wf.userNonempty u ids hids).1
  · exact fun d ids hids => wf.deviceNonempty d ids hids

/-- Witness for `sessionManager_index_invariant`: after creating one
session for user `alice` on device `1`, user-index membership of id `0`
yields the stored session. -/
theorem sessionManager_index_invariant_witness :
    (∃ sess, alookup (runOps 5 30 [.create 1 "dev" (some "alice") true 0]).sessions 0 =
      some sess ∧ sess.userId = some "alice") ∧
    (∃ ids, alookup (runOps 5 30 [.create 1 "dev" (some "alice") true 0]).deviceSessions 1 =
      some ids ∧ 0 ∈ ids) := by
  constructor
  · exact ((sessionManager_index_invariant 5 30
      [.create 1 "dev" (some "alice") true 0]).1 "alice" 0 (by decide)).mp
      ⟨[0], by decide, by decide⟩
  · exact ((sessionManager_index_invariant 5 30
      [.create 1 "dev" (some "alice") true 0]).2.1 1 0).mpr
      ⟨{ sessionId := 0, userId := some "alice", deviceId := 1, deviceName := "dev",
         createdAt := 0, lastActivity := 0, isActive := true }, by decide, rfl⟩

/-- C3: in any reachable manager state, a `create_session` for a user
who already holds `max_sessions_per_user` sessions (default 5) returns
no session id and leaves the state — in particular the user's session
count — unchanged; a connection-open failure likewise returns no id;
every failed create leaves the state unchanged; and a successful
create registers the new id in the sessions map, the device index and
(for a named, non-empty user) the user index. -/
theorem createSession_quota_behaviour (maxSessions : Nat) (timeoutMinutes : Int)
    (ops : List ManagerOp) (d : Int) (n : String) (userId : Option String)
    (c : Bool) (now : Int) :
    defaultMaxSessionsPerUser = 5 ∧
    (∀ u ids, userId = some u →
      alookup (runOps maxSessions timeoutMinutes ops).userSessions u = some ids →
      (runOps maxSessions timeoutMinutes ops).maxSessionsPerUser ≤ ids.length →
      createSession (runOps maxSessions timeoutMinutes ops) d n userId c now =
        (none, runOps maxSessions timeoutMinutes ops)) ∧
    (c = false →
      createSession (runOps maxSessions timeoutMinutes ops) d n userId c now =
        (none, runOps maxSessions timeoutMinutes ops)) ∧
    (∀ s s2 : ManagerState, createSession s d n userId c now = (none, s2) → s2 = s) ∧
    (∀ sid s2,
      createSession (runOps maxSessions timeoutMinutes ops) d n userId c now =
        (some sid, s2) →
      (∃ sess, alookup s2.sessions sid = some sess ∧ sess.userId = userId ∧
        sess.deviceId = d) ∧
      (∃ ids2, alookup s2.deviceSessions d = some ids2 ∧ sid ∈ ids2) ∧
      (∀ u, userId = some u → u ≠ "" →
        ∃ ids2, alookup s2.userSessions u = some ids2 ∧ sid ∈ ids2)) := by
  have wf := managerWF_runOps maxSessions timeoutMinutes ops
  refine ⟨rfl, ?_, ?_, ?_, ?_⟩
  · intro u ids hu hids hlen
    have hne : u ≠ "" := (wf.userNonempty u ids hids).2
    have hq : quotaExceeded (runOps maxSessions timeoutMinutes ops) userId = true := by
      rw [hu]
      simp [quotaExceeded, pyTruthy, hne, hids, hlen]
    simp [createSession, hq]
  · intro hc
    subst hc
    by_cases hq : quotaExceeded (runOps maxSessions timeoutMinutes ops) userId = true
    · simp [createSession, hq]
    · simp [createSession, hq]
  · intro s s2 h
    by_cases hq : quotaExceeded s userId = true
    · simp [createSession, hq] at h
      exact h.symm
    · by_cases hc : c = true
      · simp [createSession, hq, hc] at h
      · have hcf : c = false := by
          cases c
          · rfl
          · exact absurd rfl hc
        simp [createSession, hq, hcf] at h
        exact h.symm
  · intro sid s2 h
    by_cases hq : quotaExceeded (runOps maxSessions timeoutMinutes ops) userId = true
    · simp [createSession, hq] at h
    · by_cases hc : c = true
      · simp [createSession, hq, hc] at h
        obtain ⟨hsid, hs2⟩ := h
        rw [← hs2]
        refine ⟨⟨newSessionOf (runOps maxSessions timeoutMinutes ops) d n userId now,
          ?_, rfl, rfl⟩, ?_, ?_⟩
        · rw [alookup_registerSession_sessions wf d n userId now sid, if_pos hsid.symm]
        · show ∃ ids2, alookup
            (deviceIndexAfterCreate (runOps maxSessions timeoutMinutes ops) d) d =
              some ids2 ∧ sid ∈ ids2
          rw [alookup_deviceIndexAfterCreate, if_pos rfl]
          refine ⟨_, rfl, ?_⟩
          rw [← hsid]
          exact List.mem_append_right _ (by simp)
        · intro u hu hneu
          show ∃ ids2, alookup
            (userIndexAfterCreate (runOps maxSessions timeoutMinutes ops) userId) u =
              some ids2 ∧ sid ∈ ids2
          rw [hu, alookup_userIndexAfterCreate _ hneu, if_pos rfl]
          refine ⟨_, rfl, ?_⟩
          rw [← hsid]
          exact List.mem_append_right _ (by simp)
      · have hcf : c = false := by
          cases c
          · rfl
          · exact absurd rfl hc
        simp [createSession, hq, hcf] at h

/-- Witness for `createSession_quota_behaviour`: with
`max_sessions_per_user = 1`, a user already holding one session is
rejected; a connection failure is rejected; a successful create on a
fresh manager registers the id everywhere. -/
theorem createSession_quota_behaviour_witness :
    createSession (runOps 1 30 [.create 1 "dev" (some "alice") true 0]) 2 "dev2"
        (some "alice") true 7 =
      (none, runOps 1 30 [.create 1 "dev" (some "alice") true 0]) ∧
    createSession (runOps 1 30 []) 2 "dev2" (some "alice") false 7 =
      (none, runOps 1 30 []) ∧
    (∃ sess, alookup
        ((createSession (runOps 1 30 []) 2 "dev2" (some "alice") true 7).2).sessions 0 =
        some sess ∧ sess.userId = some "alice" ∧ sess.deviceId = 2) := by
  refine ⟨?_, ?_, ?_⟩
  · exact (createSession_quota_behaviour 1 30 [.create 1 "dev" (some "alice") true 0]
      2 "dev2" (some "alice") true 7).2.1 "alice" [0] rfl (by decide) (by decide)
  · exact (createSession_quota_behaviour 1 30 [] 2 "dev2" (some "alice") false 7).2.2.1 rfl
  · exact ((createSession_quota_behaviour 1 30 [] 2 "dev2" (some "alice") true 7).2.2.2.2
      0 (createSession (runOps 1 30 []) 2 "dev2" (some "alice") true 7).2 (by decide)).1

/-- C4: in any reachable manager state, one pass of
`_cleanup_expired_sessions` removes exactly the sessions whose
`last_activity` is strictly older than `now - session_timeout_minutes`
(default 30): a strictly-older session is gone, any other survives
unchanged.  `get_session` on a stored (hence active) session returns it
with `last_activity` refreshed and changes nothing but that entry;
on an unknown id — or, in any state, an inactive session — it returns
`None` and leaves the state untouched.  Finally `get_session` is the
only operation that refreshes `last_activity`: any other operation
leaves the `last_activity` of every surviving session unchanged. -/
theorem sweep_expiry_and_get_refresh (maxSessions : Nat) (timeoutMinutes : Int)
    (ops : List ManagerOp) (now : Int) (sid : Nat) :
    defaultSessionTimeoutMinutes = 30 ∧
    (∀ sess, alookup (runOps maxSessions timeoutMinutes ops).sessions sid = some sess →
      (sess.lastActivity <
          now - (runOps maxSessions timeoutMinutes ops).sessionTimeoutMinutes →
        alookup (cleanupExpiredSessions (runOps maxSessions timeoutMinutes ops)
          now).sessions sid = none) ∧
      (¬sess.lastActivity <
          now - (runOps maxSessions timeoutMinutes ops).sessionTimeoutMinutes →
        alookup (cleanupExpiredSessions (runOps maxSessions timeoutMinutes ops)
          now).sessions sid = some sess)) ∧
    (∀ sess, alookup (runOps maxSessions timeoutMinutes ops).sessions sid = some sess →
      (getSession (runOps maxSessions timeoutMinutes ops) sid now).1 =
        some { sess with lastActivity := now } ∧
      ((getSession (runOps maxSessions timeoutMinutes ops) sid now).2).sessions =
        dinsert (runOps maxSessions timeoutMinutes ops).sessions sid
          { sess with lastActivity := now } ∧
      ((getSession (runOps maxSessions timeoutMinutes ops) sid now).2).userSessions =
        (runOps maxSessions timeoutMinutes ops).userSessions ∧
      ((getSession (runOps maxSessions timeoutMinutes ops) sid now).2).deviceSessions =
        (runOps maxSessions timeoutMinutes ops).deviceSessions) ∧
    (alookup (runOps maxSessions timeoutMinutes ops).sessions sid = none →
      getSession (runOps maxSessions timeoutMinutes ops) sid now =
        (none, runOps maxSessions timeoutMinutes ops)) ∧
    (∀ s0 : ManagerState, ∀ sess, alookup s0.sessions sid = some sess →
      sess.isActive = false → getSession s0 sid now = (none, s0)) ∧
    (∀ op sess sess2,
      alookup (runOps maxSessions timeoutMinutes ops).sessions sid = some sess →
      alookup (applyOp (runOps maxSessions timeoutMinutes ops) op).sessions sid =
        some sess2 →
      sess2.lastActivity = sess.lastActivity ∨
        ∃ t2, op = .get sid t2 ∧ sess2 = { sess with lastActivity := t2 }) := by
  have wf := managerWF_runOps maxSessions timeoutMinutes ops
  refine ⟨rfl, ?_, ?_, ?_, ?_, ?_⟩
  · intro sess h
    constructor
    · intro hexp
      have hmem : sid ∈ ((runOps maxSessions timeoutMinutes ops).sessions.filter
          (fun p => decide (p.2.lastActivity <
            now - (runOps maxSessions timeoutMinutes ops).sessionTimeoutMinutes))).map
          Prod.fst :=
        (mem_expired_of_lookup wf.keysNodup h _).mpr hexp
      exact foldl_close_lookup_mem hmem
    · intro hfresh
      have hnmem : sid ∉ ((runOps maxSessions timeoutMinutes ops).sessions.filter
          (fun p => decide (p.2.lastActivity <
            now - (runOps maxSessions timeoutMinutes ops).sessionTimeoutMinutes))).map
          Prod.fst := by
        intro hc
        exact hfresh ((mem_expired_of_lookup wf.keysNodup h _).mp hc)
      exact (foldl_close_lookup_notmem hnmem).trans h
  · intro sess h
    have hact : sess.isActive = true := (wf.sessionsSound sid sess h).1
    refine ⟨?_, ?_, ?_, ?_⟩ <;> simp [getSession, h, hact]
  · intro h
    simp [getSession, h]
  · intro s0 sess h hinact
    simp [getSession, h, hinact]
  · intro op sess sess2 h h2
    have hne : ¬(sid = (runOps maxSessions timeoutMinutes ops).nextId) := by
      intro hc
      rw [hc, wf.lookup_nextId] at h
      exact Option.noConfusion h
    cases op with
    | create d n u c t =>
      by_cases hq : quotaExceeded (runOps maxSessions timeoutMinutes ops) u = true
      · have hst : applyOp (runOps maxSessions timeoutMinutes ops) (.create d n u c t) =
            runOps maxSessions timeoutMinutes ops := by
          simp [applyOp, createSession, hq]
        rw [hst, h] at h2
        rw [Option.some_inj.mp h2.symm]
        exact Or.inl rfl
      · by_cases hc : c = true
        · have hst : applyOp (runOps maxSessions timeoutMinutes ops) (.create d n u c t) =
              registerSession (runOps maxSessions timeoutMinutes ops) d n u t := by
            simp [applyOp, createSession, hq, hc]
          rw [hst, alookup_registerSession_sessions wf d n u t sid, if_neg hne, h] at h2
          rw [Option.some_inj.mp h2.symm]
          exact Or.inl rfl
        · have hcf : c = false := by
            cases c
            · rfl
            · exact absurd rfl hc
          have hst : applyOp (runOps maxSessions timeoutMinutes ops) (.create d n u c t) =
              runOps maxSessions timeoutMinutes ops := by
            simp [applyOp, createSession, hq, hcf]
          rw [hst, h] at h2
          rw [Option.some_inj.mp h2.symm]
          exact Or.inl rfl
    | get sid3 t3 =>
      cases h3 : alookup (runOps maxSessions timeoutMinutes ops).sessions sid3 with
      | none =>
        have hst : applyOp (runOps maxSessions timeoutMinutes ops) (.get sid3 t3) =
            runOps maxSessions timeoutMinutes ops := by
          simp [applyOp, getSession, h3]
        rw [hst, h] at h2
        rw [Option.some_inj.mp h2.symm]
        exact Or.inl rfl
      | some sess3 =>
        have hact3 : sess3.isActive = true := (wf.sessionsSound sid3 sess3 h3).1
        have hst : (applyOp (runOps maxSessions timeoutMinutes ops)
            (.get sid3 t3)).sessions =
            dinsert (runOps maxSessions timeoutMinutes ops).sessions sid3
              { sess3 with lastActivity := t3 } := by
          simp [applyOp, getSession, h3, hact3]
        rw [hst, alookup_dinsert] at h2
        by_cases hx : sid = sid3
        · rw [if_pos hx] at h2
          have hs3 : sess3 = sess := by
            rw [← hx, h] at h3
            exact (Option.some_inj.mp h3).symm
          refine Or.inr ⟨t3, by rw [hx], ?_⟩
          rw [← Option.some_inj.mp h2, hs3]
        · rw [if_neg hx, h] at h2
          rw [Option.some_inj.mp h2.symm]
          exact Or.inl rfl
    | close sid3 =>
      by_cases hx : sid = sid3
      · rw [show applyOp (runOps maxSessions timeoutMinutes ops) (.close sid3) =
            (closeSession (runOps maxSessions timeoutMinutes ops) sid3).2 from rfl] at h2
        rw [hx, closeSession_lookup_self] at h2
        exact Option.noConfusion h2
      · rw [show applyOp (runOps maxSessions timeoutMinutes ops) (.close sid3) =
            (closeSession (runOps maxSessions timeoutMinutes ops) sid3).2 from rfl,
          closeSession_lookup_other _ hx, h] at h2
        rw [Option.some_inj.mp h2.symm]
        exact Or.inl rfl
    | sweep t3 =>
      have hcases := @foldl_close_lookup_cases
        (((runOps maxSessions timeoutMinutes ops).sessions.filter
          (fun p => decide (p.2.lastActivity <
            t3 - (runOps maxSessions timeoutMinutes ops).sessionTimeoutMinutes))).map
          Prod.fst)
        (runOps maxSessions timeoutMinutes ops) sid
      rcases hcases with hc | hc
      · rw [show (applyOp (runOps maxSessions timeoutMinutes ops) (.sweep t3)).sessions =
            ((((runOps maxSessions timeoutMinutes ops).sessions.filter
              (fun p => decide (p.2.lastActivity <
                t3 - (runOps maxSessions timeoutMinutes ops).sessionTimeoutMinutes))).map
              Prod.fst).foldl (fun st y => (closeSession st y).2)
              (runOps maxSessions timeoutMinutes ops)).sessions from rfl] at h2
        rw [hc] at h2
        exact Option.noConfusion h2
      · rw [show (applyOp (runOps maxSessions timeoutMinutes ops) (.sweep t3)).sessions =
            ((((runOps maxSessions timeoutMinutes ops).sessions.filter
              (fun p => decide (p.2.lastActivity <
                t3 - (runOps maxSessions timeoutMinutes ops).sessionTimeoutMinutes))).map
              Prod.fst).foldl (fun st y => (closeSession st y).2)
              (runOps maxSessions timeoutMinutes ops)).sessions from rfl] at h2
        rw [hc, h] at h2
        rw [Option.some_inj.mp h2.symm]
        exact Or.inl rfl

/-- Witness for `sweep_expiry_and_get_refresh`: one session created at
time 0 with the default 30-minute timeout is removed by a sweep at time
100 and survives a sweep at time 10; `get_session` at time 10 returns
it refreshed, and on an unknown id returns `None`. -/
theorem sweep_expiry_and_get_refresh_witness :
    alookup (cleanupExpiredSessions (runOps 5 30 [.create 1 "dev" none true 0])
      100).sessions 0 = none ∧
    alookup (cleanupExpiredSessions (runOps 5 30 [.create 1 "dev" none true 0])
      10).sessions 0 =
      some { sessionId := 0, userId := none, deviceId := 1, deviceName := "dev",
             createdAt := 0, lastActivity := 0, isActive := true } ∧
    (getSession (runOps 5 30 [.create 1 "dev" none true 0]) 0 10).1 =
      some { sessionId := 0, userId := none, deviceId := 1, deviceName := "dev",
             createdAt := 0, lastActivity := 10, isActive := true } ∧
    getSession (runOps 5 30 [.create 1 "dev" none true 0]) 7 10 =
      (none, runOps 5 30 [.create 1 "dev" none true 0]) := by
  refine ⟨?_, ?_, ?_, ?_⟩
  · exact (((sweep_expiry_and_get_refresh 5 30 [.create 1 "dev" none true 0] 100
      0).2.1 { sessionId := 0, userId := none, deviceId := 1, deviceName := "dev",
               createdAt := 0, lastActivity := 0, isActive := true }
      (by decide)).1 (by decide))
  · exact (((sweep_expiry_and_get_refresh 5 30 [.create 1 "dev" none true 0] 10
      0).2.1 { sessionId := 0, userId := none, deviceId := 1, deviceName := "dev",
               createdAt := 0, lastActivity := 0, isActive := true }
      (by decide)).2 (by decide))
  · exact (((sweep_expiry_and_get_refresh 5 30 [.create 1 "dev" none true 0] 10
      0).2.2.1 { sessionId := 0, userId := none, deviceId := 1, deviceName := "dev",
                 createdAt := 0, lastActivity := 0, isActive := true }
      (by decide)).1)
  · exact ((sweep_expiry_and_get_refresh 5 30 [.create 1 "dev" none true 0] 10
      7).2.2.2.1 (by decide))

/-! ## Configuration pipeline (`app/network/config/`)

`ConfigOperations.generate_config_diff` and
`ConfigOperations.validate_config_syntax` are pure and embedded
directly.  `ConfigDeployTask.execute` / `ConfigRollbackTask.execute`
interact with the device and the filesystem; those interactions are
abstracted as a `DeployEnv` (outcome of the pre-change backup, of
opening the scrapli-cfg connection, and of the load/commit calls) and
an `fs` map from paths to file contents.  A `DeployTrace` records which
external interactions the control flow reached, so that "never opens
the load/commit connection" is a provable statement.  `uuid4` operation
ids are passed in as arguments. -/

/-- Python `str.endswith` over character lists. -/
def endsWithCL (cs pat : List Char) : Bool :=
  startsWithCL cs.reverse pat.reverse

/-- Remove every occurrence of the (non-empty) pattern, mirroring
`line.replace(pattern, "")`; the fuel argument (instantiated with the
input length) makes the left-to-right scan structural. -/
def stripOccurrencesFuel (pat : List Char) : Nat → List Char → List Char
  | 0, _ => []
  | _, [] => []
  | fuel + 1, c :: rest =>
    if startsWithCL (c :: rest) pat then
      stripOccurrencesFuel pat fuel (List.drop (pat.length - 1) rest)
    else c :: stripOccurrencesFuel pat fuel rest

/-- `line.replace(pattern, "")` for a non-empty pattern. -/
def stripOccurrences (pat cs : List Char) : List Char :=
  stripOccurrencesFuel pat cs.length cs

/-- `ConfigValidationResult` (device id and timestamp omitted). -/
structure ConfigValidationResult where
  isValid : Bool
  syntaxErrors : List String
  warnings : List String
deriving Repr

/-- One iteration of the validation loop of
`ConfigOperations.validate_config_syntax`: returns the error and
warning contributions of line `i` (1-based). -/
def lineChecks (platform : String) (i : Nat) (rawLine : String) :
    List String × List String :=
  let line := pyStrip rawLine.data
  if line.isEmpty || startsWithCL line "#".data || startsWithCL line "!".data then
    ([], [])
  else
    let warnings :=
      if endsWithCL line " ".data then
        ["Line " ++ toString i ++ ": Trailing whitespace"]
      else []
    let errors :=
      if pyLower platform = "h3c" || pyLower platform = "huawei" then
        if startsWithCL line "interface".data &&
            (pyStrip (stripOccurrences "interface".data line)).isEmpty then
          ["Line " ++ toString i ++ ": Interface name missing"]
        else []
      else []
    (errors, warnings)

/-- `ConfigOperations.validate_config_syntax`: per-line checks over
`splitlines`, aborting validity on errors only (warnings never make the
result invalid). -/
def validateConfigSyntax (content : String) (platform : String) :
    ConfigValidationResult :=
  let lines := pySplitlines content
  let pairs := (List.range lines.length).zip lines
  let errors := pairs.foldr (fun p acc => (lineChecks platform (p.1 + 1) p.2).1 ++ acc) []
  let warnings := pairs.foldr (fun p acc => (lineChecks platform (p.1 + 1) p.2).2 ++ acc) []
  { isValid := errors.isEmpty, syntaxErrors := errors, warnings := warnings }

/-- `ConfigDeployResult` (deploy timestamp omitted; `error_details`
kept as an optional message). -/
structure ConfigDeployResult where
  deviceId : Int
  operationId : String
  success : Bool
  deployedCommands : List String
  failedCommands : List String
  errorDetail : Option String
deriving DecidableEq, Repr

/-- Outcomes of the external interactions of
`ConfigDeployTask.execute`. -/
structure DeployEnv where
  backup : Except PyExc String
  cfgOpen : Except PyExc Unit
  loadFailed : Bool
  commitFailed : Bool
deriving Repr

/-- Which external interactions the deploy control flow reached. -/
structure DeployTrace where
  backupAttempted : Bool
  cfgConnAttempted : Bool
deriving DecidableEq, Repr

/-- The failed `ConfigDeployResult` built by the `except` clause of
`ConfigDeployTask.execute`. -/
def failedDeploy (deviceId : Int) (opId : String) (content : String)
    (msg : String) : ConfigDeployResult :=
  { deviceId := deviceId, operationId := opId, success := false,
    deployedCommands := [], failedCommands := pySplitlines content,
    errorDetail := some msg }

/-- `ConfigDeployTask.execute(dry_run)`: back up first
(unconditionally), validate syntax (abort on errors, not warnings);
on `dry_run` return success with the line-split content without
touching the device; otherwise open the scrapli-cfg connection and
load + commit, converting any failure into a failed result. -/
def deployExecute (deviceId : Int) (opId : String) (content : String)
    (brand : String) (dryRun : Bool) (env : DeployEnv) :
    ConfigDeployResult × DeployTrace :=
  match env.backup with
  | .error e =>
    (failedDeploy deviceId opId content (pyExcMsg e),
     { backupAttempted := true, cfgConnAttempted := false })
  | .ok _ =>
    let validation := validateConfigSyntax content brand
    if !validation.isValid then
      (failedDeploy deviceId opId content "配置语法验证失败",
       { backupAttempted := true, cfgConnAttempted := false })
    else if dryRun then
      ({ deviceId := deviceId, operationId := opId, success := true,
         deployedCommands := pySplitlines content, failedCommands := [],
         errorDetail := none },
       { backupAttempted := true, cfgConnAttempted := false })
    else
      match env.cfgOpen with
      | .error e =>
        (failedDeploy deviceId opId content (pyExcMsg e),
         { backupAttempted := true, cfgConnAttempted := true })
      | .ok _ =>
        if !env.loadFailed then
          if !env.commitFailed then
            ({ deviceId := deviceId, operationId := opId, success := true,
               deployedCommands := pySplitlines content, failedCommands := [],
               errorDetail := none },
             { backupAttempted := true, cfgConnAttempted := true })
          else
            (failedDeploy deviceId opId content "配置提交失败",
             { backupAttempted := true, cfgConnAttempted := true })
        else
          (failedDeploy deviceId opId content "配置加载失败",
           { backupAttempted := true, cfgConnAttempted := true })

/-- `ConfigRollbackTask.execute`: raise `FileNotFoundError` when the
backup path does not exist (before any device interaction); otherwise
read the file and re-run deploy (not a dry run) with its content,
replacing the operation id with the rollback's own. -/
def rollbackExecute (deviceId : Int) (rollbackOpId deployOpId : String)
    (fs : String → Option String) (backupPath : String) (brand : String)
    (env : DeployEnv) : Except PyExc ConfigDeployResult × DeployTrace :=
  match fs backupPath with
  | none =>
    (.error (.fileNotFoundError ("备份文件不存在: " ++ backupPath)),
     { backupAttempted := false, cfgConnAttempted := false })
  | some content =>
    let r := deployExecute deviceId deployOpId content brand false env
    (.ok { r.1 with operationId := rollbackOpId }, r.2)

/-- `ConfigDiff` (device id and `changes`, which the source never
fills, omitted). -/
structure ConfigDiff where
  currentConfig : String
  targetConfig : String
  diffLines : List String
  additions : List String
  deletions : List String
deriving DecidableEq, Repr

/-- `ConfigOperations.generate_config_diff`: a set difference over the
line sets of the two contents.  Python materializes
`list(target_set - current_set)` in unspecified set-iteration order;
the embedding picks the order given by filtering then removing
duplicates, and every property proved about it is insensitive to that
choice. -/
def generateConfigDiff (current target : String) : ConfigDiff :=
  let currentLines := pySplitlines current
  let targetLines := pySplitlines target
  let additions := (targetLines.filter (fun l => decide (l ∉ currentLines))).dedup
  let deletions := (currentLines.filter (fun l => decide (l ∉ targetLines))).dedup
  { currentConfig := current, targetConfig := target,
    diffLines := deletions.map (fun l => "- " ++ l) ++
      additions.map (fun l => "+ " ++ l),
    additions := additions, deletions := deletions }

/-- C7: for every configuration content, deploy with `dry_run=true`
always performs the pre-change backup, never reaches the load/commit
connection, and — when the backup succeeds and syntax validation passes
— returns a successful result whose `deployed_commands` is the
line-split input. -/
theorem deploy_dry_run (deviceId : Int) (opId : String) (content brand : String)
    (env : DeployEnv) :
    (deployExecute deviceId opId content brand true env).2.backupAttempted = true ∧
    (deployExecute deviceId opId content brand true env).2.cfgConnAttempted = false ∧
    (∀ b, env.backup = .ok b → (validateConfigSyntax content brand).isValid = true →
      (deployExecute deviceId opId content brand true env).1 =
        { deviceId := deviceId, operationId := opId, success := true,
          deployedCommands := pySplitlines content, failedCommands := [],
          errorDetail := none }) := by
  refine ⟨?_, ?_, ?_⟩
  · cases hb : env.backup with
    | error e => simp [deployExecute, hb]
    | ok b =>
      by_cases hv : (validateConfigSyntax content brand).isValid = true
      · simp [deployExecute, hb, hv]
      · have hvf : (validateConfigSyntax content brand).isValid = false := by
          cases h : (validateConfigSyntax content brand).isValid
          · rfl
          · exact absurd h hv
        simp [deployExecute, hb, hvf]
  · cases hb : env.backup with
    | error e => simp [deployExecute, hb]
    | ok b =>
      by_cases hv : (validateConfigSyntax content brand).isValid = true
      · simp [deployExecute, hb, hv]
      · have hvf : (validateConfigSyntax content brand).isValid = false := by
          cases h : (validateConfigSyntax content brand).isValid
          · rfl
          · exact absurd h hv
        simp [deployExecute, hb, hvf]
  · intro b hb hv
    simp [deployExecute, hb, hv]

/-- Witness for `deploy_dry_run`: a one-line valid config on a
successful-backup environment. -/
theorem deploy_dry_run_witness :
    (deployExecute 1 "op" "hostname sw1" "h3c" true
      { backup := .ok "old", cfgOpen := .ok (), loadFailed := false,
        commitFailed := false }).1 =
      { deviceId := 1, operationId := "op", success := true,
        deployedCommands := ["hostname sw1"], failedCommands := [],
        errorDetail := none } := by
  have h := (deploy_dry_run 1 "op" "hostname sw1" "h3c"
    { backup := .ok "old", cfgOpen := .ok (), loadFailed := false,
      commitFailed := false }).2.2 "old" rfl (by decide)
  rw [h]
  have hs : pySplitlines "hostname sw1" = ["hostname sw1"] := by decide
  rw [hs]

/-- C9: rollback against a path absent from the filesystem fails with a
`FileNotFoundError` naming the path, with no backup and no load/commit
connection attempted; for an existing path it returns exactly the
result of re-running deploy (not a dry run) on the file's content, with
the rollback's own operation id. -/
theorem rollback_behaviour (deviceId : Int) (rollbackOpId deployOpId : String)
    (fs : String → Option String) (backupPath brand : String) (env : DeployEnv) :
    (fs backupPath = none →
      rollbackExecute deviceId rollbackOpId deployOpId fs backupPath brand env =
        (.error (.fileNotFoundError ("备份文件不存在: " ++ backupPath)),
         { backupAttempted := false, cfgConnAttempted := false })) ∧
    (∀ content, fs backupPath = some content →
      rollbackExecute deviceId rollbackOpId deployOpId fs backupPath brand env =
        (.ok { (deployExecute deviceId deployOpId content brand false env).1 with
            operationId := rollbackOpId },
         (deployExecute deviceId deployOpId content brand false env).2)) := by
  constructor
  · intro h
    simp [rollbackExecute, h]
  · intro content h
    simp [rollbackExecute, h]

/-- Witness for `rollback_behaviour`: an empty filesystem rejects the
rollback; a filesystem holding the backup re-runs deploy on it. -/
theorem rollback_behaviour_witness :
    rollbackExecute 1 "r1" "d1" (fun _ => none) "/b/x.cfg" "h3c"
      { backup := .ok "old", cfgOpen := .ok (), loadFailed := false,
        commitFailed := false } =
      (.error (.fileNotFoundError "备份文件不存在: /b/x.cfg"),
       { backupAttempted := false, cfgConnAttempted := false }) ∧
    rollbackExecute 1 "r1" "d1"
      (fun p => if p = "/b/x.cfg" then some "hostname sw1" else none) "/b/x.cfg" "h3c"
      { backup := .ok "old", cfgOpen := .ok (), loadFailed := false,
        commitFailed := false } =
      (.ok { deviceId := 1, operationId := "r1", success := true,
             deployedCommands := ["hostname sw1"], failedCommands := [],
             errorDetail := none },
       { backupAttempted := true, cfgConnAttempted := true }) := by
  constructor
  · have h := (rollback_behaviour 1 "r1" "d1" (fun _ => none) "/b/x.cfg" "h3c"
      { backup := .ok "old", cfgOpen := .ok (), loadFailed := false,
        commitFailed := false }).1 rfl
    rw [h]
    rfl
  · have h := (rollback_behaviour 1 "r1" "d1"
      (fun p => if p = "/b/x.cfg" then some "hostname sw1" else none) "/b/x.cfg" "h3c"
      { backup := .ok "old", cfgOpen := .ok (), loadFailed := false,
        commitFailed := false }).2 "hostname sw1" (by decide)
    rw [h]
    have hd : deployExecute 1 "d1" "hostname sw1" "h3c" false
        { backup := .ok "old", cfgOpen := .ok (), loadFailed := false,
          commitFailed := false } =
        ({ deviceId := 1, operationId := "d1", success := true,
           deployedCommands := ["hostname sw1"], failedCommands := [],
           errorDetail := none },
         { backupAttempted := true, cfgConnAttempted := true }) := by decide
    rw [hd]

/-- `normalizeNewlines` leaves a newline-free prefix untouched. -/
lemma normalizeNewlines_append_nf (cs ds : List Char)
    (h : ∀ c ∈ cs, c ≠ '\n' ∧ c ≠ '\r') :
    normalizeNewlines (cs ++ ds) false = cs ++ normalizeNewlines ds false := by
  induction cs with
  | nil => rfl
  | cons c rest ih =>
    have hc := h c (List.mem_cons_self c rest)
    have hrest : ∀ x ∈ rest, x ≠ '\n' ∧ x ≠ '\r' :=
      fun x hx => h x (List.mem_cons_of_mem c hx)
    simp [normalizeNewlines, hc.1, hc.2, ih hrest]

/-- `normalizeNewlines` is the identity on newline-free input. -/
lemma normalizeNewlines_nf (cs : List Char)
    (h : ∀ c ∈ cs, c ≠ '\n' ∧ c ≠ '\r') :
    normalizeNewlines cs false = cs := by
  have h0 := normalizeNewlines_append_nf cs [] h
  simpa [normalizeNewlines] using h0

/-- The splitter emits the accumulated segment at the first `'\n'`. -/
lemma pySplitlinesAux_append (cs : List Char) :
    ∀ acc ds : List Char, (∀ c ∈ cs, c ≠ '\n') →
    pySplitlinesAux (cs ++ '\n' :: ds) acc =
      String.mk (acc.reverse ++ cs) :: pySplitlinesAux ds [] := by
  induction cs with
  | nil =>
    intro acc ds _
    simp [pySplitlinesAux]
  | cons c rest ih =>
    intro acc ds h
    have hc := h c (List.mem_cons_self c rest)
    have hrest : ∀ x ∈ rest, x ≠ '\n' :=
      fun x hx => h x (List.mem_cons_of_mem c hx)
    simp only [List.cons_append, pySplitlinesAux, if_neg hc, List.append_eq]
    rw [ih (c :: acc) ds hrest]
    simp

/-- The splitter on a non-empty break-free list yields one segment. -/
lemma pySplitlinesAux_nf (cs : List Char) :
    ∀ acc : List Char, (∀ c ∈ cs, c ≠ '\n') → cs ≠ [] →
    pySplitlinesAux cs acc = [String.mk (acc.reverse ++ cs)] := by
  induction cs with
  | nil => intro acc _ hne; exact absurd rfl hne
  | cons c rest ih =>
    intro acc h _
    have hc := h c (List.mem_cons_self c rest)
    by_cases hr : rest = []
    · subst hr
      simp [pySplitlinesAux, hc]
    · have hrest : ∀ x ∈ rest, x ≠ '\n' :=
        fun x hx => h x (List.mem_cons_of_mem c hx)
      simp only [pySplitlinesAux, if_neg hc]
      rw [ih (c :: acc) hrest hr]
      simp

/-- Splitting two break-free lines joined by `"\n"` (second non-empty)
recovers exactly the two lines. -/
lemma pySplitlines_pair (u v : String)
    (hu : ∀ c ∈ u.data, c ≠ '\n' ∧ c ≠ '\r')
    (hv : ∀ c ∈ v.data, c ≠ '\n' ∧ c ≠ '\r')
    (hvne : v ≠ "") :
    pySplitlines (u ++ "\n" ++ v) = [u, v] := by
  have hvd : v.data ≠ [] := by
    intro hh
    apply hvne
    cases v with
    | mk d =>
      simp only [String.data] at hh
      rw [hh]
  have hdata : (u ++ "\n" ++ v).data = u.data ++ '\n' :: v.data := by
    cases u with
    | mk a =>
      cases v with
      | mk b => simp [String.data_append]
  unfold pySplitlines
  rw [hdata]
  rw [normalizeNewlines_append_nf u.data ('\n' :: v.data) hu]
  have h1 : normalizeNewlines ('\n' :: v.data) false = '\n' :: v.data := by
    have h2 : normalizeNewlines ('\n' :: v.data) false =
        '\n' :: normalizeNewlines v.data false := by
      simp [normalizeNewlines]
    rw [h2, normalizeNewlines_nf v.data hv]
  rw [h1]
  rw [pySplitlinesAux_append u.data [] v.data (fun c hc => (hu c hc).1)]
  rw [pySplitlinesAux_nf v.data [] (fun c hc => (hv c hc).1) hvd]
  simp

/-- The filter-then-dedup step of the diff computes a set difference. -/
lemma filter_dedup_toFinset (l m : List String) :
    ((l.filter (fun a => decide (a ∉ m))).dedup).toFinset =
      l.toFinset \ m.toFinset := by
  ext a
  simp [List.mem_dedup, List.mem_filter]

/-- C8: the configuration diff is a set difference over lines — diffing
any content against itself gives empty additions and deletions; with
line sets `{x,y}` against `{y,z}` (distinct break-free lines) the
additions are exactly `[z]` and the deletions exactly `[x]`; and two
pairs of contents with equal line sets produce equal addition and
deletion sets regardless of line order or duplicates. -/
theorem config_diff_set_semantics :
    (∀ a : String, (generateConfigDiff a a).additions = [] ∧
      (generateConfigDiff a a).deletions = []) ∧
    (∀ x y z : String,
      (∀ c ∈ x.data, c ≠ '\n' ∧ c ≠ '\r') →
      (∀ c ∈ y.data, c ≠ '\n' ∧ c ≠ '\r') →
      (∀ c ∈ z.data, c ≠ '\n' ∧ c ≠ '\r') →
      y ≠ "" → z ≠ "" → x ≠ y → x ≠ z → y ≠ z →
      (generateConfigDiff (x ++ "\n" ++ y) (y ++ "\n" ++ z)).additions = [z] ∧
      (generateConfigDiff (x ++ "\n" ++ y) (y ++ "\n" ++ z)).deletions = [x]) ∧
    (∀ c1 c2 t1 t2 : String,
      (pySplitlines c1).toFinset = (pySplitlines c2).toFinset →
      (pySplitlines t1).toFinset = (pySplitlines t2).toFinset →
      (generateConfigDiff c1 t1).additions.toFinset =
        (generateConfigDiff c2 t2).additions.toFinset ∧
      (generateConfigDiff c1 t1).deletions.toFinset =
        (generateConfigDiff c2 t2).deletions.toFinset) := by
  refine ⟨?_, ?_, ?_⟩
  · intro a
    have key : ∀ l : List String,
        (l.filter (fun s => decide (s ∉ l))).dedup = [] := by
      intro l
      have hf : l.filter (fun s => decide (s ∉ l)) = [] := by
        rw [List.filter_eq_nil_iff]
        intro s hs
        simp [hs]
      rw [hf]
      rfl
    exact ⟨key (pySplitlines a), key (pySplitlines a)⟩
  · intro x y z hx hy hz hyne hzne hxy hxz hyz
    have hc : pySplitlines (x ++ "\n" ++ y) = [x, y] := pySplitlines_pair x y hx hy hyne
    have ht : pySplitlines (y ++ "\n" ++ z) = [y, z] := pySplitlines_pair y z hy hz hzne
    have hzm : z ∉ ([x, y] : List String) := by
      intro hmem
      rcases List.mem_cons.mp hmem with h | h
      · exact hxz h.symm
      · rcases List.mem_cons.mp h with h' | h'
        · exact hyz h'.symm
        · exact absurd h' (List.not_mem_nil z)
    have hxm : x ∉ ([y, z] : List String) := by
      intro hmem
      rcases List.mem_cons.mp hmem with h | h
      · exact hxy h
      · rcases List.mem_cons.mp h with h' | h'
        · exact hxz h'
        · exact absurd h' (List.not_mem_nil x)
    constructor
    · show ((pySplitlines (y ++ "\n" ++ z)).filter
        (fun s => decide (s ∉ pySplitlines (x ++ "\n" ++ y)))).dedup = [z]
      rw [hc, ht]
      have h1 : (decide (y ∉ ([x, y] : List String))) = false := by simp
      have h2 : (decide (z ∉ ([x, y] : List String))) = true := decide_eq_true hzm
      simp only [List.filter_cons, List.filter_nil, h1, h2, if_true, if_false,
        Bool.false_eq_true, if_neg]
      exact List.dedup_eq_self.mpr (List.nodup_singleton z)
    · show ((pySplitlines (x ++ "\n" ++ y)).filter
        (fun s => decide (s ∉ pySplitlines (y ++ "\n" ++ z)))).dedup = [x]
      rw [hc, ht]
      have h1 : (decide (x ∉ ([y, z] : List String))) = true := decide_eq_true hxm
      have h2 : (decide (y ∉ ([y, z] : List String))) = false := by simp
      simp only [List.filter_cons, List.filter_nil, h1, h2, if_true, if_false,
        Bool.false_eq_true, if_neg]
      exact List.dedup_eq_self.mpr (List.nodup_singleton x)
  · intro c1 c2 t1 t2 hcc htt
    constructor
    · show ((pySplitlines t1).filter
          (fun s => decide (s ∉ pySplitlines c1))).dedup.toFinset =
        ((pySplitlines t2).filter
          (fun s => decide (s ∉ pySplitlines c2))).dedup.toFinset
      rw [filter_dedup_toFinset, filter_dedup_toFinset, hcc, htt]
    · show ((pySplitlines c1).filter
          (fun s => decide (s ∉ pySplitlines t1))).dedup.toFinset =
        ((pySplitlines c2).filter
          (fun s => decide (s ∉ pySplitlines t2))).dedup.toFinset
      rw [filter_dedup_toFinset, filter_dedup_toFinset, hcc, htt]

/-- Witness for `config_diff_set_semantics`: self diff of `"a\nb"`,
the `\x7bx,y\x7d`-vs-`\x7by,z\x7d` case with lines `a`, `b`, `c`, and
order/duplicate insensitivity with reordered and duplicated lines. -/
theorem config_diff_set_semantics_witness :
    ((generateConfigDiff "a\nb" "a\nb").additions = [] ∧
      (generateConfigDiff "a\nb" "a\nb").deletions = []) ∧
    ((generateConfigDiff "a\nb" "b\nc").additions = ["c"] ∧
      (generateConfigDiff "a\nb" "b\nc").deletions = ["a"]) ∧
    ((generateConfigDiff "b\na\nb" "c\nb").additions.toFinset =
        (generateConfigDiff "a\nb" "b\nc").additions.toFinset ∧
      (generateConfigDiff "b\na\nb" "c\nb").deletions.toFinset =
        (generateConfigDiff "a\nb" "b\nc").deletions.toFinset) := by
  refine ⟨config_diff_set_semantics.1 "a\nb", ?_, ?_⟩
  · exact config_diff_set_semantics.2.1 "a" "b" "c"
      (by decide) (by decide) (by decide) (by decide) (by decide)
      (by decide) (by decide) (by decide)
  · exact config_diff_set_semantics.2.2 "b\na\nb" "a\nb" "c\nb" "b\nc"
      (by decide) (by decide)

end NetworkMon
